import Mathlib

/-!
Verification of the P16-Tools assembler and simulator
(`src/assembly/src/{simulator,compile,memory,datatypes}.rs`) against its
natural-language specification.

The Rust code is shallowly embedded: nibbles, 16-bit words and addresses
become `Nat` with explicit masking / `% 2^w` where the machine width
matters; `VecDeque` becomes `List` (head = the deque's front); `Vec` used
as a stack becomes `List` (head = top of stack); fallible operations
return `Except`.
-/

set_option maxRecDepth 20000

namespace P16

/-! ### Arithmetic helpers -/

/-- A bit of a number below `2^(k+1)` read as a comparison. -/
theorem testBit_eq_decide_le {n k : Nat} (h : n < 2 ^ (k + 1)) :
    n.testBit k = decide (2 ^ k ≤ n) := by
  rw [Nat.testBit_to_div_mod]
  have h2 : n / 2 ^ k < 2 := by
    apply Nat.div_lt_of_lt_mul
    rw [Nat.pow_succ] at h
    omega
  rcases Nat.lt_or_ge n (2 ^ k) with h3 | h3
  · have h4 : n / 2 ^ k = 0 := Nat.div_eq_of_lt h3
    simp [h4, Nat.not_le.mpr h3]
  · have h5 : 1 ≤ n / 2 ^ k := by
      rw [Nat.le_div_iff_mul_le (Nat.two_pow_pos k)]
      omega
    have h6 : n / 2 ^ k = 1 := by omega
    simp [h6, h3]

/-- Masking with `15` is reduction mod `16`. -/
theorem and_fifteen (x : Nat) : x &&& 15 = x % 16 := by
  have h : (15 : Nat) = 2 ^ 4 - 1 := by norm_num
  rw [h, Nat.and_pow_two_sub_one_eq_mod]

/-- Masking with `32767` is reduction mod `2^15`. -/
theorem and_low15 (x : Nat) : x &&& 32767 = x % 32768 := by
  have h : (32767 : Nat) = 2 ^ 15 - 1 := by norm_num
  rw [h, Nat.and_pow_two_sub_one_eq_mod]

/-- Bitwise OR of a value with a shifted value clear of its bits is addition. -/
theorem or_shift_eq_add (a b k : Nat) (ha : a < 2 ^ k) :
    a ||| b <<< k = a + 2 ^ k * b := by
  rw [Nat.shiftLeft_eq, Nat.lor_comm, Nat.mul_comm]
  rw [← Nat.mul_add_lt_is_or ha b]
  omega

/-- Recombining the four nibbles of a 16-bit value, low-to-high, as the
simulator's `VALUE` decode does. -/
theorem nibble_recombine (n0 n1 n2 n3 : Nat)
    (h0 : n0 < 16) (h1 : n1 < 16) (h2 : n2 < 16) (h3 : n3 < 16) :
    n0 ||| n1 <<< 4 ||| n2 <<< 8 ||| n3 <<< 12
      = n0 + 16 * n1 + 256 * n2 + 4096 * n3 := by
  have e1 : n0 ||| n1 <<< 4 = n0 + 16 * n1 := by
    have := or_shift_eq_add n0 n1 4 (by omega)
    omega
  rw [e1]
  have e2 : n0 + 16 * n1 ||| n2 <<< 8 = n0 + 16 * n1 + 256 * n2 := by
    have := or_shift_eq_add (n0 + 16 * n1) n2 8 (by omega)
    omega
  rw [e2]
  have e3 : n0 + 16 * n1 + 256 * n2 ||| n3 <<< 12
      = n0 + 16 * n1 + 256 * n2 + 4096 * n3 := by
    have := or_shift_eq_add (n0 + 16 * n1 + 256 * n2) n3 12 (by omega)
    omega
  rw [e3]

/-! ### ALU flags and `add_with_flags` (simulator.rs lines 62-95) -/

/-- The four ALU flags. -/
structure AluFlags where
  zero : Bool
  negative : Bool
  carry : Bool
  overflow : Bool
deriving DecidableEq, Inhabited

/-- `noop_get_flags`: Z and N from a 16-bit value, C and V cleared. -/
def noop_get_flags (a : Nat) : AluFlags :=
  { zero := decide (a = 0)
    negative := decide (32768 ≤ a)  -- a >= (1 << 15)
    carry := false
    overflow := false }

/-- `add_with_flags(a, b, cin)`: 16-bit sum with wrap-around together with
the Z/N/C/V flags.  `carry_last` tests bit 16 of the unwrapped sum
(`& (1 << 16)`); `carry_second_to_last` tests bit 15 of the sum of the
operands with their top bits masked off (`a & !(1 << 15)`). -/
def add_with_flags (a b : Nat) (cin : Bool) : Nat × AluFlags :=
  let c : Nat := if cin then 1 else 0
  let s := (a + b + c) % 65536
  let s_flags := noop_get_flags s
  let carry_last := (a + b + c).testBit 16
  let carry_second_to_last := ((a &&& 32767) + (b &&& 32767) + c).testBit 15
  (s, { zero := s_flags.zero
        negative := s_flags.negative
        carry := carry_last
        overflow := xor carry_last carry_second_to_last })

/-! ### Simulator state (simulator.rs) -/

/-- Where the program counter points: a ROM page or a RAM base address. -/
inductive ProgramPagePtr
  | rom (page : Nat)
  | ram (addr : Nat)
deriving DecidableEq

/-- Program pointer: page plus an 8-bit offset. -/
structure ProgramPtr where
  page : ProgramPagePtr
  counter : Nat
deriving DecidableEq

/-- Finished program memory: 16 ROM pages of 256 nibbles and a plane of
4096 16-bit RAM words. -/
structure ProgramMemory where
  rom : Nat → Nat → Nat
  ram : Nat → Nat

/-- `RamMem::read`: word reads wrap mod the RAM size. -/
def ProgramMemory.ram_read (m : ProgramMemory) (addr : Nat) : Nat :=
  m.ram (addr % 4096)

/-- `RamMem::write`. -/
def ProgramMemory.ram_write (m : ProgramMemory) (addr val : Nat) : ProgramMemory :=
  { m with ram := fun i => if i = addr % 4096 then val else m.ram i }

/-- `ProgramMemory::read`: one nibble at a program pointer.  RAM-resident
code reads nibble `3 - counter % 4` of word `addr + counter / 4`
(16-bit wrap-around on the address). -/
def ProgramMemory.read (m : ProgramMemory) (p : ProgramPtr) : Nat :=
  match p.page with
  | .rom pg => m.rom pg p.counter
  | .ram addr => m.ram_read ((addr + p.counter / 4) % 65536) >>> ((3 - p.counter % 4) * 4) &&& 15

/-- `ProgramMemory::read_page`: the 256 nibbles of a page, materialized. -/
def ProgramMemory.read_page (m : ProgramMemory) (page : ProgramPagePtr) : Nat → Nat :=
  fun i => m.read ⟨page, i % 256⟩

/-- Runtime error states.  The only variant, `DataStackOverflow`, is never
produced: the `return` that would raise it is commented out in the source. -/
inductive EndErrorState
  | DataStackOverflow
deriving DecidableEq

/-- Result of one `step`.  `Continue` and `Finish` are the variants of the
source under `src/`; `WaitingForInput` is the variant of the newer
simulator that the gui drivers consume (see `Simulator.step_input`). -/
inductive EndStepOkState
  | Continue
  | Finish
  | WaitingForInput
deriving DecidableEq

/-- The simulator.  Deques become lists whose head is the deque's front;
`Vec`-stacks become lists whose head is the most recently pushed element.
Output callbacks are replaced by the list of emitted `(path, word)` pairs,
in emission order. -/
structure Simulator where
  memory : ProgramMemory
  program_counter : ProgramPtr
  pcache : Nat → Nat
  call_stack : List ProgramPtr
  data_stack : List Nat
  registers : Nat → Nat
  flags_delay : List AluFlags
  flags : AluFlags
  input_queue : List Nat
  outputs : List (List Nat × Nat)

/-- One tick of the flag-delay deque: `push_back` the current flags and
`pop_front` the entry at the other end. -/
def flags_tick (fd : List AluFlags) (f : AluFlags) : List AluFlags :=
  (fd ++ [f]).tail

/-- `Simulator::set_flags`: overwrite the ALU flags and the last `past`
entries of the delay queue (the newest end). -/
def Simulator.set_flags (s : Simulator) (f : AluFlags) (past : Nat) : Simulator :=
  { s with flags := f
           flags_delay := s.flags_delay.take (s.flags_delay.length - past)
             ++ List.replicate (min past s.flags_delay.length) f }

/-- `Simulator::flush_flag_delay`: overwrite every delay-queue entry with
the current flags. -/
def Simulator.flush_flag_delay (s : Simulator) : Simulator :=
  { s with flags_delay := s.flags_delay.map (fun _ => s.flags) }

/-- `Simulator::increment`: advance the program counter (8-bit wrap) and
tick the flag-delay queue. -/
def Simulator.increment (s : Simulator) : Simulator :=
  { s with program_counter := ⟨s.program_counter.page, (s.program_counter.counter + 1) % 256⟩
           flags_delay := flags_tick s.flags_delay s.flags }

/-- `Simulator::load_pache`: refresh the page cache from memory. -/
def Simulator.load_pache (s : Simulator) : Simulator :=
  { s with pcache := s.memory.read_page s.program_counter.page }

/-- `Simulator::read_pcache`: the nibble under the program counter. -/
def Simulator.read_pcache (s : Simulator) : Nat :=
  s.pcache s.program_counter.counter

/-- `Simulator::push_data_stack`: always succeeds (the overflow error is
commented out in the source). -/
def Simulator.push_data_stack (s : Simulator) (x : Nat) : Except EndErrorState Simulator :=
  .ok { s with data_stack := x :: s.data_stack }

/-- `Simulator::pop_data_stack`: `pop().unwrap_or(0)` — an empty stack
yields the word 0. -/
def Simulator.pop_data_stack (s : Simulator) : Nat × Simulator :=
  match s.data_stack with
  | [] => (0, s)
  | x :: rest => (x, { s with data_stack := rest })

/-- Register read (registers hold 16-bit words, indices are nibbles). -/
def Simulator.get_reg (s : Simulator) (r : Nat) : Nat :=
  s.registers r

/-- Register write. -/
def Simulator.set_reg (s : Simulator) (r v : Nat) : Simulator :=
  { s with registers := fun i => if i = r then v else s.registers i }

/-- Bitwise NOT on a 16-bit word (`!x` on `u16`). -/
def not16 (x : Nat) : Nat :=
  x ^^^ 65535

/-- `u16::rotate_left`. -/
def rotl16 (x n : Nat) : Nat :=
  (x <<< (n % 16) ||| x >>> (16 - n % 16)) % 65536

/-- The 16 branch predicates, by condition nibble, over the flags read from
the delay queue and the emptiness of the input FIFO. -/
def branch_cond (c : Nat) (f : AluFlags) (input_empty : Bool) : Bool :=
  if c = 0 then !input_empty
  else if c = 1 then input_empty
  else if c = 2 then f.zero
  else if c = 3 then !f.zero
  else if c = 4 then f.negative
  else if c = 5 then !f.negative
  else if c = 6 then f.overflow
  else if c = 7 then !f.overflow
  else if c = 8 then f.carry
  else if c = 9 then !f.carry
  else if c = 10 then f.carry && !f.zero
  else if c = 11 then !f.carry || f.zero
  else if c = 12 then f.negative == f.overflow
  else if c = 13 then f.negative != f.overflow
  else if c = 14 then (f.negative == f.overflow) && !f.zero
  else (f.negative != f.overflow) || f.zero

/-- Successful step result wrapper. -/
def stepOk (e : EndStepOkState) (s : Simulator) :
    Option (Except EndErrorState (EndStepOkState × Simulator)) :=
  some (.ok (e, s))

/-- Sequence a data-stack push into a step continuation (the `?` / `unwrap`
on `push_data_stack` in the source). -/
def Simulator.thenPush (s : Simulator) (x : Nat)
    (k : Simulator → Option (Except EndErrorState (EndStepOkState × Simulator))) :
    Option (Except EndErrorState (EndStepOkState × Simulator)) :=
  match s.push_data_stack x with
  | .ok s2 => k s2
  | .error e => some (.error e)

/-- Opcode 0, `Pass`. -/
def Simulator.step_pass (s : Simulator) :
    Option (Except EndErrorState (EndStepOkState × Simulator)) :=
  stepOk .Continue s.increment

/-- Opcode 1, `Value`: read four nibbles high-to-low and push the word. -/
def Simulator.step_value (s : Simulator) :
    Option (Except EndErrorState (EndStepOkState × Simulator)) :=
  let s1 := s.increment
  let n3 := s1.read_pcache
  let s2 := s1.increment
  let n2 := s2.read_pcache
  let s3 := s2.increment
  let n1 := s3.read_pcache
  let s4 := s3.increment
  let n0 := s4.read_pcache
  let s5 := s4.increment
  let value := n0 ||| n1 <<< 4 ||| n2 <<< 8 ||| n3 <<< 12
  s5.thenPush value (stepOk .Continue)

/-- Opcode 2, `Jump`: set the counter to a 2-nibble target, flush flags. -/
def Simulator.step_jump (s : Simulator) :
    Option (Except EndErrorState (EndStepOkState × Simulator)) :=
  let s1 := s.increment
  let a1 := s1.read_pcache
  let s2 := s1.increment
  let a0 := s2.read_pcache
  let addr := a0 ||| a1 <<< 4
  let s3 := { s2 with program_counter := ⟨s2.program_counter.page, addr⟩ }
  stepOk .Continue s3.flush_flag_delay

/-- Opcode 3, `Branch`: the condition flags are captured from the front of
the delay queue before any advance; the queue is flushed whether or not
the branch is taken. -/
def Simulator.step_branch (s : Simulator) :
    Option (Except EndErrorState (EndStepOkState × Simulator)) :=
  let f := s.flags_delay.headI
  let s1 := s.increment
  let cond := s1.read_pcache
  let s2 := s1.increment
  let a1 := s2.read_pcache
  let s3 := s2.increment
  let a0 := s3.read_pcache
  let s4 := s3.increment
  let addr := a0 ||| a1 <<< 4
  let s5 := if branch_cond cond f s4.input_queue.isEmpty
    then { s4 with program_counter := ⟨s4.program_counter.page, addr⟩ }
    else s4
  stepOk .Continue s5.flush_flag_delay

/-- Opcode 4, `Push`: copy a register onto the data stack. -/
def Simulator.step_push (s : Simulator) :
    Option (Except EndErrorState (EndStepOkState × Simulator)) :=
  let s1 := s.increment
  let reg := s1.read_pcache
  let s2 := s1.increment
  s2.thenPush (s2.get_reg reg) (stepOk .Continue)

/-- Opcode 5, `Pop`: pop the data stack into a register. -/
def Simulator.step_pop (s : Simulator) :
    Option (Except EndErrorState (EndStepOkState × Simulator)) :=
  let s1 := s.increment
  let reg := s1.read_pcache
  let s2 := s1.increment
  let p := s2.pop_data_stack
  stepOk .Continue (p.2.set_reg reg p.1)

/-- Opcode 6, `Call`: push the post-operand pc, jump within the page. -/
def Simulator.step_call (s : Simulator) :
    Option (Except EndErrorState (EndStepOkState × Simulator)) :=
  let s1 := s.increment
  let a1 := s1.read_pcache
  let s2 := s1.increment
  let a0 := s2.read_pcache
  let s3 := s2.increment
  let addr := a0 ||| a1 <<< 4
  let s4 := { s3 with call_stack := s3.program_counter :: s3.call_stack
                      program_counter := ⟨s3.program_counter.page, addr⟩ }
  stepOk .Continue s4.load_pache.flush_flag_delay

/-- Opcode 7, `Return`: pop the call stack; an empty stack finishes the
program with no other state change. -/
def Simulator.step_return (s : Simulator) :
    Option (Except EndErrorState (EndStepOkState × Simulator)) :=
  match s.call_stack with
  | [] => stepOk .Finish s
  | ptr :: rest =>
    stepOk .Continue ({ s with program_counter := ptr, call_stack := rest }).load_pache

/-- Opcode 8, `Add`: pop, add a register with carry-in 0, push the sum and
write the flags register (the delay queue is not rewritten here). -/
def Simulator.step_add (s : Simulator) :
    Option (Except EndErrorState (EndStepOkState × Simulator)) :=
  let s1 := s.increment
  let reg := s1.read_pcache
  let s2 := s1.increment
  let p := s2.pop_data_stack
  let reg_value := p.2.get_reg reg
  let r := add_with_flags p.1 reg_value false
  p.2.thenPush r.1 (fun s4 => stepOk .Continue { s4 with flags := r.2 })

/-- Opcode 9, `Rotate`: rotate a register left. -/
def Simulator.step_rotate (s : Simulator) :
    Option (Except EndErrorState (EndStepOkState × Simulator)) :=
  let s1 := s.increment
  let shift := s1.read_pcache
  let s2 := s1.increment
  let reg := s2.read_pcache
  let s3 := s2.increment
  stepOk .Continue (s3.set_reg reg (rotl16 (s3.get_reg reg) shift))

/-- Opcode 10, `Alm1`: the 16 unary stack operations.  `Read`/`ReadPop`
push the RAM value into the input queue (the source's behavior). -/
def Simulator.step_alm1 (s : Simulator) :
    Option (Except EndErrorState (EndStepOkState × Simulator)) :=
  let s1 := s.increment
  let op := s1.read_pcache
  let s2 := s1.increment
  if op = 0 then
    let p := s2.pop_data_stack
    p.2.thenPush p.1 (fun s4 => s4.thenPush p.1 (stepOk .Continue))
  else if op = 1 then
    let p := s2.pop_data_stack
    let y := not16 p.1
    (p.2.set_flags (noop_get_flags y) 2).thenPush y (stepOk .Continue)
  else if op = 2 then
    let p := s2.pop_data_stack
    let s4 := { p.2 with input_queue := p.2.input_queue ++ [p.2.memory.ram_read p.1] }
    s4.thenPush p.1 (stepOk .Continue)
  else if op = 3 then
    let p := s2.pop_data_stack
    stepOk .Continue { p.2 with input_queue := p.2.input_queue ++ [p.2.memory.ram_read p.1] }
  else if op = 4 then
    let p := s2.pop_data_stack
    let r := add_with_flags p.1 0 true
    (p.2.set_flags r.2 2).thenPush r.1 (stepOk .Continue)
  else if op = 5 then
    let p := s2.pop_data_stack
    let r := add_with_flags p.1 0 p.2.flags.carry
    (p.2.set_flags r.2 2).thenPush r.1 (stepOk .Continue)
  else if op = 6 then
    let p := s2.pop_data_stack
    let r := add_with_flags p.1 65535 false
    (p.2.set_flags r.2 2).thenPush r.1 (stepOk .Continue)
  else if op = 7 then
    let p := s2.pop_data_stack
    let r := add_with_flags p.1 65535 p.2.flags.carry
    (p.2.set_flags r.2 2).thenPush r.1 (stepOk .Continue)
  else if op = 8 then
    let p := s2.pop_data_stack
    let r := add_with_flags (not16 p.1) 0 true
    (p.2.set_flags r.2 2).thenPush r.1 (stepOk .Continue)
  else if op = 9 then
    let p := s2.pop_data_stack
    let r := add_with_flags (not16 p.1) 0 p.2.flags.carry
    (p.2.set_flags r.2 2).thenPush r.1 (stepOk .Continue)
  else if op = 10 then
    let p := s2.pop_data_stack
    (p.2.set_flags (noop_get_flags p.1) 2).thenPush p.1 (stepOk .Continue)
  else if op = 11 then
    let p := s2.pop_data_stack
    stepOk .Continue (p.2.set_flags (noop_get_flags p.1) 2)
  else if op = 12 then
    let p := s2.pop_data_stack
    let y := p.1 >>> 1
    let c := decide (p.1 &&& 1 ≠ 0)
    (p.2.set_flags { noop_get_flags y with carry := c } 2).thenPush y (stepOk .Continue)
  else if op = 13 then
    let p := s2.pop_data_stack
    let y := p.1 >>> 1 ||| (if p.2.flags.carry then 32768 else 0)
    let c := decide (p.1 &&& 1 ≠ 0)
    (p.2.set_flags { noop_get_flags y with carry := c } 2).thenPush y (stepOk .Continue)
  else if op = 14 then
    let p := s2.pop_data_stack
    let y := p.1 >>> 1 ||| 32768
    let c := decide (p.1 &&& 1 ≠ 0)
    (p.2.set_flags { noop_get_flags y with carry := c } 2).thenPush y (stepOk .Continue)
  else
    let p := s2.pop_data_stack
    let cin := decide (p.1 &&& 32768 ≠ 0)
    let y := p.1 >>> 1 ||| (if cin then 32768 else 0)
    let c := decide (p.1 &&& 1 ≠ 0)
    (p.2.set_flags { noop_get_flags y with carry := c } 2).thenPush y (stepOk .Continue)

/-- Opcode 11, `Alm2`: the 16 register-operand stack operations. -/
def Simulator.step_alm2 (s : Simulator) :
    Option (Except EndErrorState (EndStepOkState × Simulator)) :=
  let s1 := s.increment
  let op := s1.read_pcache
  let s2 := s1.increment
  let reg := s2.read_pcache
  let s3 := s2.increment
  let r := s3.get_reg reg
  if op = 0 then
    let p := s3.pop_data_stack
    (p.2.set_reg reg p.1).thenPush r (stepOk .Continue)
  else if op = 1 then
    let p := s3.pop_data_stack
    let q := add_with_flags p.1 (not16 r) true
    (p.2.set_flags q.2 3).thenPush q.1 (stepOk .Continue)
  else if op = 2 then
    let p := s3.pop_data_stack
    ({ p.2 with memory := p.2.memory.ram_write p.1 r }).thenPush p.1 (stepOk .Continue)
  else if op = 3 then
    let p := s3.pop_data_stack
    stepOk .Continue { p.2 with memory := p.2.memory.ram_write p.1 r }
  else if op = 4 then
    let p := s3.pop_data_stack
    let y := p.1 &&& r
    (p.2.set_flags (noop_get_flags y) 3).thenPush y (stepOk .Continue)
  else if op = 5 then
    let p := s3.pop_data_stack
    let y := not16 (p.1 &&& r)
    (p.2.set_flags (noop_get_flags y) 3).thenPush y (stepOk .Continue)
  else if op = 6 then
    let p := s3.pop_data_stack
    let y := p.1 ||| r
    (p.2.set_flags (noop_get_flags y) 3).thenPush y (stepOk .Continue)
  else if op = 7 then
    let p := s3.pop_data_stack
    let y := not16 (p.1 ||| r)
    (p.2.set_flags (noop_get_flags y) 3).thenPush y (stepOk .Continue)
  else if op = 8 then
    let p := s3.pop_data_stack
    let y := p.1 ^^^ r
    (p.2.set_flags (noop_get_flags y) 3).thenPush y (stepOk .Continue)
  else if op = 9 then
    let p := s3.pop_data_stack
    let y := not16 (p.1 ^^^ r)
    (p.2.set_flags (noop_get_flags y) 3).thenPush y (stepOk .Continue)
  else if op = 10 then
    stepOk .Continue (s3.set_flags (noop_get_flags r) 3)
  else if op = 11 then
    let p := s3.pop_data_stack
    p.2.thenPush p.1 (fun s5 =>
      stepOk .Continue (s5.set_flags (add_with_flags p.1 (not16 r) true).2 3))
  else if op = 12 then
    let p := s3.pop_data_stack
    let q := add_with_flags p.1 r false
    ((p.2.set_flags q.2 3).set_reg reg p.1).thenPush q.1 (stepOk .Continue)
  else if op = 13 then
    let p := s3.pop_data_stack
    let q := add_with_flags p.1 (not16 r) true
    ((p.2.set_flags q.2 3).set_reg reg p.1).thenPush q.1 (stepOk .Continue)
  else if op = 14 then
    let p := s3.pop_data_stack
    let q := add_with_flags p.1 r p.2.flags.carry
    (p.2.set_flags q.2 3).thenPush q.1 (stepOk .Continue)
  else
    let p := s3.pop_data_stack
    let q := add_with_flags p.1 (not16 r) p.2.flags.carry
    (p.2.set_flags q.2 3).thenPush q.1 (stepOk .Continue)

/-- Opcode 12, `RomCall`: cross-page call to a ROM page. -/
def Simulator.step_romcall (s : Simulator) :
    Option (Except EndErrorState (EndStepOkState × Simulator)) :=
  let s1 := s.increment
  let page := s1.read_pcache
  let s2 := s1.increment
  let b := s2.read_pcache
  let s3 := s2.increment
  let a := s3.read_pcache
  let s4 := s3.increment
  let s5 := { s4 with call_stack := s4.program_counter :: s4.call_stack
                      program_counter := ⟨.rom page, a ||| b <<< 4⟩ }
  stepOk .Continue s5.load_pache.flush_flag_delay

/-- Opcode 13, `RamCall`: call into RAM-resident code; the RAM base
address is popped from the data stack. -/
def Simulator.step_ramcall (s : Simulator) :
    Option (Except EndErrorState (EndStepOkState × Simulator)) :=
  let s1 := s.increment
  let b := s1.read_pcache
  let s2 := s1.increment
  let a := s2.read_pcache
  let s3 := s2.increment
  let s4 := { s3 with call_stack := s3.program_counter :: s3.call_stack }
  let p := s4.pop_data_stack
  let s5 := { p.2 with program_counter := ⟨.ram p.1, a ||| b <<< 4⟩ }
  stepOk .Continue s5.load_pache.flush_flag_delay

/-- Opcode 14, `Input`.  Modelled from the spec: the simulator version
whose `step` returns `WaitingForInput` is not under `src/` (the
`src/assembly` simulator instead busy-waits with a thread sleep, while the
gui drivers under `src/gui` consume `WaitingForInput`).  Per the spec: if
the input FIFO is non-empty, pop the front and push it onto the data
stack; otherwise return `WaitingForInput` without advancing `pc` so the
next step retries the same opcode. -/
def Simulator.step_input (s : Simulator) :
    Option (Except EndErrorState (EndStepOkState × Simulator)) :=
  match s.input_queue with
  | [] => stepOk .WaitingForInput s
  | v :: rest =>
    let s1 := s.increment
    ({ s1 with input_queue := rest }).thenPush v (stepOk .Continue)

/-- The `Output` path scan: collect oct-digits (low 3 bits) until a nibble
with bit 3 set, advancing the pc each read.  Positions repeat with period
256, so 256 iterations decide the loop: `none` means the source's loop
never terminates (no terminator nibble in the page). -/
def output_loop : Nat → Simulator → List Nat → Option (Simulator × List Nat)
  | 0, _, _ => none
  | fuel + 1, s, octs =>
    let a := s.read_pcache
    let octs2 := octs ++ [a &&& 7]
    let s2 := s.increment
    if a &&& 8 ≠ 0 then some (s2, octs2) else output_loop fuel s2 octs2

/-- Opcode 15, `Output`: read the path, pop a word, emit `(path, word)`. -/
def Simulator.step_output (s : Simulator) :
    Option (Except EndErrorState (EndStepOkState × Simulator)) :=
  let s1 := s.increment
  match output_loop 256 s1 [] with
  | none => none
  | some (s2, octs) =>
    let p := s2.pop_data_stack
    stepOk .Continue { p.2 with outputs := p.2.outputs ++ [(octs, p.1)] }

/-- `Simulator::step`: dispatch on the opcode nibble under the pc.  In the
source the opcode is a `Nibble` (always `< 16`), so the final arm is the
`Output` opcode 15. -/
def Simulator.step (s : Simulator) :
    Option (Except EndErrorState (EndStepOkState × Simulator)) :=
  match s.read_pcache with
  | 0 => s.step_pass
  | 1 => s.step_value
  | 2 => s.step_jump
  | 3 => s.step_branch
  | 4 => s.step_push
  | 5 => s.step_pop
  | 6 => s.step_call
  | 7 => s.step_return
  | 8 => s.step_add
  | 9 => s.step_rotate
  | 10 => s.step_alm1
  | 11 => s.step_alm2
  | 12 => s.step_romcall
  | 13 => s.step_ramcall
  | 14 => s.step_input
  | _ => s.step_output

/-! ### Claim C1 -/

/-- Claim C1: for all 16-bit `a`, `b` and carry-in `cin`, `add_with_flags`
returns `s = (a + b + cin) mod 2^16` with `zero = (s = 0)`,
`negative = bit 15 of s`, `carry = bit 16 of the 17-bit unsigned sum`, and
`overflow = carry XOR (the carry into bit 15)`. -/
theorem add_with_flags_correct (a b : Nat) (cin : Bool)
    (ha : a < 65536) (hb : b < 65536) :
    (add_with_flags a b cin).1 = (a + b + (if cin then 1 else 0)) % 65536 ∧
    (add_with_flags a b cin).2.zero = decide ((add_with_flags a b cin).1 = 0) ∧
    (add_with_flags a b cin).2.negative = (add_with_flags a b cin).1.testBit 15 ∧
    (add_with_flags a b cin).2.carry = decide (65536 ≤ a + b + (if cin then 1 else 0)) ∧
    (add_with_flags a b cin).2.overflow
      = xor (decide (65536 ≤ a + b + (if cin then 1 else 0)))
          (decide (32768 ≤ a % 32768 + b % 32768 + (if cin then 1 else 0))) := by
  have hc1 : (if cin then 1 else 0 : Nat) ≤ 1 := by split <;> omega
  have hcarry : (a + b + (if cin then 1 else 0)).testBit 16
      = decide (65536 ≤ a + b + (if cin then 1 else 0)) := by
    have hb17 : a + b + (if cin then 1 else 0) < 2 ^ (16 + 1) := by
      norm_num
      omega
    have := testBit_eq_decide_le hb17
    norm_num at this
    exact this
  have hneg : ((a + b + (if cin then 1 else 0)) % 65536).testBit 15
      = decide (32768 ≤ (a + b + (if cin then 1 else 0)) % 65536) := by
    have hm : (a + b + (if cin then 1 else 0)) % 65536 < 2 ^ (15 + 1) := by
      norm_num
      omega
    have := testBit_eq_decide_le hm
    norm_num at this
    exact this
  have hlow : ((a &&& 32767) + (b &&& 32767) + (if cin then 1 else 0)).testBit 15
      = decide (32768 ≤ a % 32768 + b % 32768 + (if cin then 1 else 0)) := by
    rw [and_low15, and_low15]
    have hm : a % 32768 + b % 32768 + (if cin then 1 else 0) < 2 ^ (15 + 1) := by
      have h1 : a % 32768 < 32768 := Nat.mod_lt _ (by norm_num)
      have h2 : b % 32768 < 32768 := Nat.mod_lt _ (by norm_num)
      norm_num
      omega
    have := testBit_eq_decide_le hm
    norm_num at this
    exact this
  refine ⟨rfl, rfl, ?_, ?_, ?_⟩
  · show decide (32768 ≤ (a + b + (if cin then 1 else 0)) % 65536)
      = ((a + b + (if cin then 1 else 0)) % 65536).testBit 15
    rw [hneg]
  · show (a + b + (if cin then 1 else 0)).testBit 16
      = decide (65536 ≤ a + b + (if cin then 1 else 0))
    exact hcarry
  · show xor ((a + b + (if cin then 1 else 0)).testBit 16)
        (((a &&& 32767) + (b &&& 32767) + (if cin then 1 else 0)).testBit 15)
      = xor (decide (65536 ≤ a + b + (if cin then 1 else 0)))
          (decide (32768 ≤ a % 32768 + b % 32768 + (if cin then 1 else 0)))
    rw [hcarry, hlow]

/-- Claim C1 witness: the theorem at `a = 40000`, `b = 40000`, `cin = true`
(a case with carry and overflow both set). -/
theorem add_with_flags_correct_witness :
    (add_with_flags 40000 40000 true).1 = (40000 + 40000 + (if true then 1 else 0)) % 65536 ∧
    (add_with_flags 40000 40000 true).2.zero
      = decide ((add_with_flags 40000 40000 true).1 = 0) ∧
    (add_with_flags 40000 40000 true).2.negative
      = (add_with_flags 40000 40000 true).1.testBit 15 ∧
    (add_with_flags 40000 40000 true).2.carry
      = decide (65536 ≤ 40000 + 40000 + (if true then 1 else 0)) ∧
    (add_with_flags 40000 40000 true).2.overflow
      = xor (decide (65536 ≤ 40000 + 40000 + (if true then 1 else 0)))
          (decide (32768 ≤ 40000 % 32768 + 40000 % 32768 + (if true then 1 else 0))) :=
  add_with_flags_correct 40000 40000 true (by norm_num) (by norm_num)

/-! ### BRANCH step characterization (shared) -/

/-- One tick keeps the queue length. -/
theorem flags_tick_length (fd : List AluFlags) (f : AluFlags) :
    (flags_tick fd f).length = fd.length := by
  simp [flags_tick]

/-- On a non-empty queue, a tick appends the current flags at the back and
drops the entry at the front: the head is the oldest entry. -/
theorem flags_tick_eq (fd : List AluFlags) (f : AluFlags) (h : fd ≠ []) :
    flags_tick fd f = fd.tail ++ [f] := by
  cases fd with
  | nil => simp at h
  | cons x xs => simp [flags_tick]

/-- Spec-side description of the program counter offset after a BRANCH:
the decoded 8-bit target when the condition (read against the head of the
flag-delay queue) holds, the fall-through offset otherwise. -/
def branch_new_counter (s : Simulator) : Nat :=
  if branch_cond (s.pcache ((s.program_counter.counter + 1) % 256))
      s.flags_delay.headI s.input_queue.isEmpty
  then s.pcache ((s.program_counter.counter + 3) % 256)
    ||| s.pcache ((s.program_counter.counter + 2) % 256) <<< 4
  else (s.program_counter.counter + 4) % 256

theorem step_branch_eq (s : Simulator) (hop : s.read_pcache = 3) :
    s.step = s.step_branch := by
  unfold Simulator.step
  rw [hop]

/-- Full characterization of a BRANCH step: only the counter and the
flag-delay queue change, and the queue is flushed to copies of the current
flags in every case. -/
theorem step_branch_spec (s : Simulator) (hop : s.read_pcache = 3) :
    s.step = stepOk .Continue
      { s with
        program_counter := ⟨s.program_counter.page, branch_new_counter s⟩
        flags_delay := List.replicate s.flags_delay.length s.flags } := by
  rw [step_branch_eq s hop]
  unfold Simulator.step_branch branch_new_counter
  have e2 : (s.program_counter.counter + 1) % 256 % 256 = (s.program_counter.counter + 1) % 256 := by
    omega
  have e3 : ((s.program_counter.counter + 1) % 256 + 1) % 256 = (s.program_counter.counter + 2) % 256 := by
    omega
  have e4 : ((s.program_counter.counter + 2) % 256 + 1) % 256 = (s.program_counter.counter + 3) % 256 := by
    omega
  have e5 : ((s.program_counter.counter + 3) % 256 + 1) % 256 = (s.program_counter.counter + 4) % 256 := by
    omega
  have elen : (((((s.flags_delay ++ [s.flags]).tail ++ [s.flags]).tail ++ [s.flags]).tail
      ++ [s.flags]).tail).length = s.flags_delay.length := by
    simp
  simp only [Simulator.increment, Simulator.read_pcache, Simulator.flush_flag_delay, flags_tick,
    e2, e3, e4, e5]
  split
  · simp only [stepOk, Option.some.injEq, Except.ok.injEq, Prod.mk.injEq, List.map_const', elen]
  · simp only [stepOk, Option.some.injEq, Except.ok.injEq, Prod.mk.injEq, List.map_const', elen]

/-! ### Claim C2 -/

/-- Claim C2: for two simulator states at a BRANCH opcode that differ only
in their (length-6) flag-delay queues — so that the branch may be taken in
one run and not in the other — the flag-delay queues immediately after the
step are identical (both flushed to six copies of the current flags), and
the two result states agree on every component except possibly the program
counter offset. -/
theorem branch_taken_untaken_same_queue (s : Simulator) (fd : List AluFlags)
    (h1 : s.flags_delay.length = 6) (h2 : fd.length = 6) (hop : s.read_pcache = 3) :
    ∃ s1 s2,
      s.step = stepOk .Continue s1 ∧
      Simulator.step { s with flags_delay := fd } = stepOk .Continue s2 ∧
      s1.flags_delay = List.replicate 6 s.flags ∧
      s2.flags_delay = s1.flags_delay ∧
      s2.memory = s1.memory ∧ s2.pcache = s1.pcache ∧ s2.call_stack = s1.call_stack ∧
      s2.data_stack = s1.data_stack ∧ s2.registers = s1.registers ∧ s2.flags = s1.flags ∧
      s2.input_queue = s1.input_queue ∧ s2.outputs = s1.outputs ∧
      s2.program_counter.page = s1.program_counter.page := by
  have hs := step_branch_spec s hop
  have ht := step_branch_spec { s with flags_delay := fd } hop
  refine ⟨_, _, hs, ht, ?_, ?_, rfl, rfl, rfl, rfl, rfl, rfl, rfl, rfl, rfl⟩
  · simp [h1]
  · simp [h1, h2]

/-- Concrete state for the claim C2 witness: a BRANCH on condition Z
(nibble 2) with target offset 5, from a queue whose oldest entry has the
zero flag set — the branch is taken. -/
def c2_state : Simulator :=
  { memory := ⟨fun _ _ => 0, fun _ => 0⟩
    program_counter := ⟨.rom 0, 0⟩
    pcache := fun i => if i = 0 then 3 else if i = 1 then 2 else if i = 3 then 5 else 0
    call_stack := []
    data_stack := []
    registers := fun _ => 0
    flags_delay := List.replicate 6 ⟨true, false, false, false⟩
    flags := ⟨true, false, false, false⟩
    input_queue := []
    outputs := [] }

/-- Alternate flag-delay queue for the claim C2 witness: the zero flag is
clear in the oldest entry, so the branch is not taken. -/
def c2_fd : List AluFlags :=
  List.replicate 6 ⟨false, false, false, false⟩

/-- Claim C2 witness: the theorem at a concrete state where the two queues
decide the branch differently. -/
theorem branch_taken_untaken_same_queue_witness :
    ∃ s1 s2,
      c2_state.step = stepOk .Continue s1 ∧
      Simulator.step { c2_state with flags_delay := c2_fd } = stepOk .Continue s2 ∧
      s1.flags_delay = List.replicate 6 c2_state.flags ∧
      s2.flags_delay = s1.flags_delay ∧
      s2.memory = s1.memory ∧ s2.pcache = s1.pcache ∧ s2.call_stack = s1.call_stack ∧
      s2.data_stack = s1.data_stack ∧ s2.registers = s1.registers ∧ s2.flags = s1.flags ∧
      s2.input_queue = s1.input_queue ∧ s2.outputs = s1.outputs ∧
      s2.program_counter.page = s1.program_counter.page :=
  branch_taken_untaken_same_queue c2_state c2_fd rfl rfl rfl

/-! ### Claim C7 -/

/-- Claim C7: a BRANCH evaluates its condition nibble against the head of
the flag-delay queue — the end holding the oldest flags, since each pc
advance appends the current flags at the other end and drops the head
(final conjunct) — then overwrites the whole queue with the current flags;
if the predicate holds, the pc offset becomes the decoded 8-bit target,
else the fall-through offset. -/
theorem branch_reads_oldest_flags (s : Simulator) (hop : s.read_pcache = 3)
    (h6 : s.flags_delay.length = 6) :
    ∃ s', s.step = stepOk .Continue s' ∧
      s'.flags_delay = List.replicate 6 s.flags ∧
      s'.program_counter.page = s.program_counter.page ∧
      s'.program_counter.counter =
        (if branch_cond (s.pcache ((s.program_counter.counter + 1) % 256))
            s.flags_delay.headI s.input_queue.isEmpty
         then s.pcache ((s.program_counter.counter + 3) % 256)
           ||| s.pcache ((s.program_counter.counter + 2) % 256) <<< 4
         else (s.program_counter.counter + 4) % 256) ∧
      s.increment.flags_delay = s.flags_delay.tail ++ [s.flags] := by
  refine ⟨_, step_branch_spec s hop, ?_, rfl, rfl, ?_⟩
  · simp [h6]
  · show flags_tick s.flags_delay s.flags = s.flags_delay.tail ++ [s.flags]
    apply flags_tick_eq
    intro h
    rw [h] at h6
    simp at h6

/-- Concrete state for the claim C7 witness: BRANCH on condition !Z with a
queue whose oldest entry differs from its newest ones, so the choice of
queue end is observable. -/
def c7_state : Simulator :=
  { memory := ⟨fun _ _ => 0, fun _ => 0⟩
    program_counter := ⟨.rom 0, 0⟩
    pcache := fun i => if i = 0 then 3 else if i = 1 then 3 else if i = 3 then 9 else 0
    call_stack := []
    data_stack := []
    registers := fun _ => 0
    flags_delay := ⟨false, false, false, false⟩ :: List.replicate 5 ⟨true, false, false, false⟩
    flags := ⟨true, false, false, false⟩
    input_queue := []
    outputs := [] }

/-- Claim C7 witness: the theorem at a concrete state. -/
theorem branch_reads_oldest_flags_witness :
    ∃ s', c7_state.step = stepOk .Continue s' ∧
      s'.flags_delay = List.replicate 6 c7_state.flags ∧
      s'.program_counter.page = c7_state.program_counter.page ∧
      s'.program_counter.counter =
        (if branch_cond (c7_state.pcache ((c7_state.program_counter.counter + 1) % 256))
            c7_state.flags_delay.headI c7_state.input_queue.isEmpty
         then c7_state.pcache ((c7_state.program_counter.counter + 3) % 256)
           ||| c7_state.pcache ((c7_state.program_counter.counter + 2) % 256) <<< 4
         else (c7_state.program_counter.counter + 4) % 256) ∧
      c7_state.increment.flags_delay = c7_state.flags_delay.tail ++ [c7_state.flags] :=
  branch_reads_oldest_flags c7_state rfl rfl

/-! ### Claim C3 -/

/-- Claim C3: at an INPUT opcode with an empty input FIFO, `step` returns
`WaitingForInput` with the state — program counter included — completely
unchanged, so the next step retries the same opcode; with a non-empty
FIFO, the front value is popped and pushed onto the data stack and the pc
advances past the opcode. -/
theorem input_waits_or_pops (s : Simulator) (hop : s.read_pcache = 14) :
    (s.input_queue = [] → s.step = stepOk .WaitingForInput s) ∧
    (∀ v rest, s.input_queue = v :: rest →
      s.step = stepOk .Continue
        { s with
          program_counter := ⟨s.program_counter.page, (s.program_counter.counter + 1) % 256⟩
          flags_delay := flags_tick s.flags_delay s.flags
          input_queue := rest
          data_stack := v :: s.data_stack }) := by
  have hd : s.step = s.step_input := by
    unfold Simulator.step
    rw [hop]
  constructor
  · intro h
    rw [hd]
    unfold Simulator.step_input
    rw [h]
  · intro v rest h
    rw [hd]
    unfold Simulator.step_input
    rw [h]
    simp only [Simulator.increment, Simulator.thenPush, Simulator.push_data_stack, stepOk]

/-- Concrete state for the claim C3 witness: INPUT with an empty FIFO. -/
def c3_state : Simulator :=
  { memory := ⟨fun _ _ => 0, fun _ => 0⟩
    program_counter := ⟨.rom 0, 7⟩
    pcache := fun i => if i = 7 then 14 else 0
    call_stack := []
    data_stack := []
    registers := fun _ => 0
    flags_delay := List.replicate 6 ⟨true, false, false, false⟩
    flags := ⟨true, false, false, false⟩
    input_queue := []
    outputs := [] }

/-- Claim C3 witness: the theorem at a concrete empty-FIFO state. -/
theorem input_waits_or_pops_witness :
    (c3_state.input_queue = [] → c3_state.step = stepOk .WaitingForInput c3_state) ∧
    (∀ v rest, c3_state.input_queue = v :: rest →
      c3_state.step = stepOk .Continue
        { c3_state with
          program_counter := ⟨c3_state.program_counter.page, (c3_state.program_counter.counter + 1) % 256⟩
          flags_delay := flags_tick c3_state.flags_delay c3_state.flags
          input_queue := rest
          data_stack := v :: c3_state.data_stack }) :=
  input_waits_or_pops c3_state rfl

/-! ### Claim C9 -/

/-- The nibble stream the assembler emits for `VALUE v` (compile.rs, the
`Command::Value` arm): opcode nibble 1, then the four nibbles of the
16-bit immediate pushed most significant first. -/
def encode_value (v : Nat) : List Nat :=
  [1, v >>> 12 &&& 15, v >>> 8 &&& 15, v >>> 4 &&& 15, v &&& 15]

/-- Claim C9: the assembler encodes `VALUE v` as opcode nibble 1 followed
by the four nibbles of `v` most significant to least significant, and
executing those five nibbles in the simulator pushes exactly `v` onto the
data stack (advancing the pc past the five nibbles). -/
theorem value_encode_execute (s : Simulator) (v : Nat) (hv : v < 65536)
    (h0 : s.read_pcache = (encode_value v).getD 0 0)
    (h1 : s.pcache ((s.program_counter.counter + 1) % 256) = (encode_value v).getD 1 0)
    (h2 : s.pcache ((s.program_counter.counter + 2) % 256) = (encode_value v).getD 2 0)
    (h3 : s.pcache ((s.program_counter.counter + 3) % 256) = (encode_value v).getD 3 0)
    (h4 : s.pcache ((s.program_counter.counter + 4) % 256) = (encode_value v).getD 4 0) :
    encode_value v = [1, v / 4096 % 16, v / 256 % 16, v / 16 % 16, v % 16] ∧
    ∃ s', s.step = stepOk .Continue s' ∧
      s'.data_stack = v :: s.data_stack ∧
      s'.program_counter.page = s.program_counter.page ∧
      s'.program_counter.counter = (s.program_counter.counter + 5) % 256 := by
  have henc : encode_value v = [1, v / 4096 % 16, v / 256 % 16, v / 16 % 16, v % 16] := by
    simp only [encode_value, and_fifteen, Nat.shiftRight_eq_div_pow]
  refine ⟨henc, ?_⟩
  have h0' : s.read_pcache = 1 := h0
  have h1' : s.pcache ((s.program_counter.counter + 1) % 256) = v >>> 12 &&& 15 := h1
  have h2' : s.pcache ((s.program_counter.counter + 2) % 256) = v >>> 8 &&& 15 := h2
  have h3' : s.pcache ((s.program_counter.counter + 3) % 256) = v >>> 4 &&& 15 := h3
  have h4' : s.pcache ((s.program_counter.counter + 4) % 256) = v &&& 15 := h4
  have hstep : s.step = s.step_value := by
    unfold Simulator.step
    rw [h0']
  have e2 : ((s.program_counter.counter + 1) % 256 + 1) % 256 = (s.program_counter.counter + 2) % 256 := by
    omega
  have e3 : ((s.program_counter.counter + 2) % 256 + 1) % 256 = (s.program_counter.counter + 3) % 256 := by
    omega
  have e4 : ((s.program_counter.counter + 3) % 256 + 1) % 256 = (s.program_counter.counter + 4) % 256 := by
    omega
  have e5 : ((s.program_counter.counter + 4) % 256 + 1) % 256 = (s.program_counter.counter + 5) % 256 := by
    omega
  have hdec : v &&& 15 ||| (v >>> 4 &&& 15) <<< 4 ||| (v >>> 8 &&& 15) <<< 8
      ||| (v >>> 12 &&& 15) <<< 12 = v := by
    rw [nibble_recombine (v &&& 15) (v >>> 4 &&& 15) (v >>> 8 &&& 15) (v >>> 12 &&& 15)
      (by rw [and_fifteen]; exact Nat.mod_lt _ (by norm_num))
      (by rw [and_fifteen]; exact Nat.mod_lt _ (by norm_num))
      (by rw [and_fifteen]; exact Nat.mod_lt _ (by norm_num))
      (by rw [and_fifteen]; exact Nat.mod_lt _ (by norm_num))]
    rw [and_fifteen, and_fifteen, and_fifteen, and_fifteen,
      Nat.shiftRight_eq_div_pow, Nat.shiftRight_eq_div_pow, Nat.shiftRight_eq_div_pow]
    norm_num
    omega
  rw [hstep]
  unfold Simulator.step_value
  simp only [Simulator.increment, Simulator.read_pcache, e2, e3, e4, e5, h1', h2', h3', h4',
    Simulator.thenPush, Simulator.push_data_stack, stepOk]
  refine ⟨_, rfl, ?_, rfl, rfl⟩
  simp only [hdec]

/-- Concrete state for the claim C9 witness: the encoding of `VALUE 43981`
(`0xABCD`) laid out at offset 0 of the page cache. -/
def c9_state : Simulator :=
  { memory := ⟨fun _ _ => 0, fun _ => 0⟩
    program_counter := ⟨.rom 0, 0⟩
    pcache := fun i =>
      if i = 0 then 1 else if i = 1 then 10 else if i = 2 then 11 else
      if i = 3 then 12 else if i = 4 then 13 else 0
    call_stack := []
    data_stack := []
    registers := fun _ => 0
    flags_delay := List.replicate 6 ⟨true, false, false, false⟩
    flags := ⟨true, false, false, false⟩
    input_queue := []
    outputs := [] }

/-- Claim C9 witness: the theorem at `v = 43981` (nibbles A, B, C, D). -/
theorem value_encode_execute_witness :
    encode_value 43981 = [1, 43981 / 4096 % 16, 43981 / 256 % 16, 43981 / 16 % 16, 43981 % 16] ∧
    ∃ s', c9_state.step = stepOk .Continue s' ∧
      s'.data_stack = 43981 :: c9_state.data_stack ∧
      s'.program_counter.page = c9_state.program_counter.page ∧
      s'.program_counter.counter = (c9_state.program_counter.counter + 5) % 256 :=
  value_encode_execute c9_state 43981 (by norm_num) rfl rfl rfl rfl rfl

/-! ### Claim C10 -/

/-- Claim C10: popping an empty data stack yields the word 0 and never
fails: at an empty stack, `pop_data_stack` returns `(0, s)`, and each of
POP, ADD, an ALM1 operation (`PSETF`), an ALM2 operation (`AND`), RAMCALL
and OUTPUT executes to a `Continue` result in which the popped operand was
0 — stack underflow is not an error at the simulator interface. -/
theorem stack_underflow_pops_zero (s : Simulator) (hempty : s.data_stack = []) :
    s.pop_data_stack = (0, s) ∧
    (s.read_pcache = 5 → ∃ s', s.step = stepOk .Continue s' ∧
      s'.registers (s.pcache ((s.program_counter.counter + 1) % 256)) = 0 ∧
      s'.data_stack = []) ∧
    (s.read_pcache = 8 → ∃ s', s.step = stepOk .Continue s' ∧
      s'.data_stack
        = [(add_with_flags 0 (s.registers (s.pcache ((s.program_counter.counter + 1) % 256))) false).1]) ∧
    (s.read_pcache = 10 → s.pcache ((s.program_counter.counter + 1) % 256) = 11 →
      ∃ s', s.step = stepOk .Continue s' ∧ s'.flags = noop_get_flags 0 ∧ s'.data_stack = []) ∧
    (s.read_pcache = 11 → s.pcache ((s.program_counter.counter + 1) % 256) = 4 →
      ∃ s', s.step = stepOk .Continue s' ∧ s'.data_stack = [0]) ∧
    (s.read_pcache = 13 → ∃ s', s.step = stepOk .Continue s' ∧
      s'.program_counter.page = .ram 0) ∧
    (s.read_pcache = 15 → s.pcache ((s.program_counter.counter + 1) % 256) &&& 8 ≠ 0 →
      ∃ s', s.step = stepOk .Continue s' ∧
        s'.outputs = s.outputs ++ [([s.pcache ((s.program_counter.counter + 1) % 256) &&& 7], 0)]) := by
  refine ⟨?_, ?_, ?_, ?_, ?_, ?_, ?_⟩
  · unfold Simulator.pop_data_stack
    rw [hempty]
  · intro hop
    have hd : s.step = s.step_pop := by
      unfold Simulator.step
      rw [hop]
    rw [hd]
    unfold Simulator.step_pop
    simp only [Simulator.increment, Simulator.read_pcache, Simulator.pop_data_stack,
      Simulator.set_reg, hempty, stepOk]
    exact ⟨_, rfl, by simp, rfl⟩
  · intro hop
    have hd : s.step = s.step_add := by
      unfold Simulator.step
      rw [hop]
    rw [hd]
    unfold Simulator.step_add
    simp only [Simulator.increment, Simulator.read_pcache, Simulator.pop_data_stack,
      Simulator.get_reg, Simulator.thenPush, Simulator.push_data_stack, hempty, stepOk]
    exact ⟨_, rfl, rfl⟩
  · intro hop hsub
    have hd : s.step = s.step_alm1 := by
      unfold Simulator.step
      rw [hop]
    rw [hd]
    unfold Simulator.step_alm1
    simp only [Simulator.increment, Simulator.read_pcache, Simulator.pop_data_stack,
      Simulator.set_flags, hempty, hsub, stepOk]
    norm_num
  · intro hop hsub
    have hd : s.step = s.step_alm2 := by
      unfold Simulator.step
      rw [hop]
    rw [hd]
    unfold Simulator.step_alm2
    simp only [Simulator.increment, Simulator.read_pcache, Simulator.pop_data_stack,
      Simulator.get_reg, Simulator.set_flags, Simulator.thenPush, Simulator.push_data_stack,
      hempty, hsub, stepOk]
    norm_num
  · intro hop
    have hd : s.step = s.step_ramcall := by
      unfold Simulator.step
      rw [hop]
    rw [hd]
    unfold Simulator.step_ramcall
    simp only [Simulator.increment, Simulator.read_pcache, Simulator.pop_data_stack,
      Simulator.load_pache, Simulator.flush_flag_delay, hempty, stepOk]
    exact ⟨_, rfl, rfl⟩
  · intro hop hterm
    have hd : s.step = s.step_output := by
      unfold Simulator.step
      rw [hop]
    rw [hd]
    unfold Simulator.step_output
    unfold output_loop
    simp only [Simulator.increment, Simulator.read_pcache, Simulator.pop_data_stack,
      hempty, stepOk, if_pos hterm]
    exact ⟨_, rfl, rfl⟩

/-- Concrete state for the claim C10 witness: a POP with an empty data
stack. -/
def c10_state : Simulator :=
  { memory := ⟨fun _ _ => 0, fun _ => 0⟩
    program_counter := ⟨.rom 0, 0⟩
    pcache := fun i => if i = 0 then 5 else if i = 1 then 3 else 0
    call_stack := []
    data_stack := []
    registers := fun _ => 9
    flags_delay := List.replicate 6 ⟨true, false, false, false⟩
    flags := ⟨true, false, false, false⟩
    input_queue := []
    outputs := [] }

/-- Claim C10 witness: the theorem at a concrete empty-stack state. -/
theorem stack_underflow_pops_zero_witness :
    c10_state.pop_data_stack = (0, c10_state) ∧
    (c10_state.read_pcache = 5 → ∃ s', c10_state.step = stepOk .Continue s' ∧
      s'.registers (c10_state.pcache ((c10_state.program_counter.counter + 1) % 256)) = 0 ∧
      s'.data_stack = []) ∧
    (c10_state.read_pcache = 8 → ∃ s', c10_state.step = stepOk .Continue s' ∧
      s'.data_stack
        = [(add_with_flags 0 (c10_state.registers (c10_state.pcache ((c10_state.program_counter.counter + 1) % 256))) false).1]) ∧
    (c10_state.read_pcache = 10 → c10_state.pcache ((c10_state.program_counter.counter + 1) % 256) = 11 →
      ∃ s', c10_state.step = stepOk .Continue s' ∧ s'.flags = noop_get_flags 0 ∧ s'.data_stack = []) ∧
    (c10_state.read_pcache = 11 → c10_state.pcache ((c10_state.program_counter.counter + 1) % 256) = 4 →
      ∃ s', c10_state.step = stepOk .Continue s' ∧ s'.data_stack = [0]) ∧
    (c10_state.read_pcache = 13 → ∃ s', c10_state.step = stepOk .Continue s' ∧
      s'.program_counter.page = .ram 0) ∧
    (c10_state.read_pcache = 15 → c10_state.pcache ((c10_state.program_counter.counter + 1) % 256) &&& 8 ≠ 0 →
      ∃ s', c10_state.step = stepOk .Continue s' ∧
        s'.outputs = c10_state.outputs
          ++ [([c10_state.pcache ((c10_state.program_counter.counter + 1) % 256) &&& 7], 0)]) :=
  stack_underflow_pops_zero c10_state rfl

/-! ### Assembler data model (compile.rs) -/

/-- Labels are plain strings. -/
abbrev Label := String

/-- Identity of a program page: a ROM page number or a RAM page counter. -/
inductive PageIdent
  | rom (n : Nat)
  | ram (ident : Nat)
deriving DecidableEq, BEq

/-- Location of a page after allocation: ROM page number or RAM word base. -/
inductive PageLocation
  | rom (n : Nat)
  | ram (base : Nat)
deriving DecidableEq

/-- A page in the assembly: a data section or a program page. -/
inductive AssemblyPageIdent
  | Data (k : Nat)
  | Prog (p : PageIdent)
deriving DecidableEq

/-- Address of one nibble of the compile-time memory image. -/
inductive MemNibblePtr
  | rom (page : Nat) (addr : Nat)
  | ram (nib : Nat)
deriving DecidableEq

/-- `MemNibblePtr::offset` (ROM offsets wrap as `u8`, RAM offsets wrap mod
the RAM nibble count). -/
def MemNibblePtr.offset : MemNibblePtr → Nat → MemNibblePtr
  | .rom page a, k => .rom page ((a + k) % 256)
  | .ram nib, k => .ram ((nib + k) % 16384)

/-- `PageLocation::nibble_ptr`: a page-relative offset as an absolute
nibble address. -/
def PageLocation.nibble_ptr : PageLocation → Nat → MemNibblePtr
  | .rom n, a => .rom n a
  | .ram base, a => .ram (4 * base + a)

/-- A point of the flag bus at encode time: the candidate list of
`(offset_in_page, assembly_line)` places where the flags could have been
set, in order of appearance. -/
structure FlagsState where
  sources : List (Nat × Nat)
deriving DecidableEq

/-- The compile-time memory image.  The source stores `Option<Nibble>` per
cell and panics on a double write; the compile flows embedded here write
each cell at most once (the cursor only advances and fixup slots are
reserved exactly once), so cells are plain values defaulting to 0 — which
also matches `finish`'s `unwrap_or(N0)`. -/
structure CMemory where
  rom_pages : Nat → Nat → Nat
  ram : Nat → Nat

/-- Write one nibble of the compile-time image. -/
def CMemory.set_nibble (m : CMemory) : MemNibblePtr → Nat → CMemory
  | .rom page addr, n =>
    { m with rom_pages := fun p a => if p = page ∧ a = addr then n else m.rom_pages p a }
  | .ram nib, n => { m with ram := fun a => if a = nib then n else m.ram a }

/-- `MemoryManager`: the global assembler state.  Hash maps become
association lists (keys are inserted at most once along the embedded
flows), vectors of fixups stay lists in push order. -/
structure MemoryManager where
  memory : CMemory
  rom_ptr : Nat → Option Nat
  ram_nibble_ptr : Option Nat
  labelled_page_locations : List (Label × PageLocation × Nat)
  labelled_ram_addresses : List (Label × Nat)
  labelled_page_location_targets : List (Label × PageLocation × Nat)
  ram_page_targets : List (Nat × PageLocation × Nat)
  labelled_ram_address_targets : List (Label × Nat × MemNibblePtr)
  ram_ident_to_addr : List (Nat × Nat)

/-- `MemoryManager::blank`. -/
def MemoryManager.blank : MemoryManager :=
  { memory := ⟨fun _ _ => 0, fun _ => 0⟩
    rom_ptr := fun _ => some 0
    ram_nibble_ptr := some 0
    labelled_page_locations := []
    labelled_ram_addresses := []
    labelled_page_location_targets := []
    ram_page_targets := []
    labelled_ram_address_targets := []
    ram_ident_to_addr := [] }

/-- `MemoryManager::inc_ram`: advance the global RAM nibble cursor;
`false` once the plane (16384 nibbles) is exhausted. -/
def MemoryManager.inc_ram (mm : MemoryManager) : MemoryManager × Bool :=
  match mm.ram_nibble_ptr with
  | some p =>
    if p + 1 < 16384 then ({ mm with ram_nibble_ptr := some (p + 1) }, true)
    else ({ mm with ram_nibble_ptr := none }, false)
  | none => (mm, false)

/-- `MemoryManager::next_ram_word_ptr`: round the RAM cursor up to the
next word boundary and return that word address. -/
def MemoryManager.next_ram_word_ptr (mm : MemoryManager) : MemoryManager × Option Nat :=
  match mm.ram_nibble_ptr with
  | some p =>
    let q := p + (4 - p % 4) % 4
    if 16384 ≤ q then ({ mm with ram_nibble_ptr := none }, none)
    else ({ mm with ram_nibble_ptr := some q }, some (q / 4))
  | none => (mm, none)

/-- Assembly-time compile errors (compile.rs `CompileError`). -/
inductive CompileError
  | Invalid16BitValue (line : Nat)
  | MissingLabel (line : Nat) (label : Label)
  | MissingRamLabel (line : Nat) (label : Label)
  | DuplicateRamLabel (line : Nat) (label : Label)
  | JumpOrBranchToOtherPage (line : Nat)
  | BadUseflagsWithBranch (branch_line : Nat) (useflags_line : Nat)
  | BadUseflags (useflags_line : Nat)
  | RomPageFull (page : Nat)
  | InvalidCommandLocation (line : Nat)
  | RamFull
deriving DecidableEq

/-- `MemoryPageManager`: the per-page assembler state, bundled with the
global manager it borrows.  `ptr = none` means the page is full.  The
flag-delay queue's head is its front (straight out of the ALU); its last
element is the back (what a branch sees). -/
structure PageCtx where
  mm : MemoryManager
  page : PageLocation
  page_ident : PageIdent
  ptr : Option Nat
  flags_as_set : FlagsState
  flags_delay_queue : List FlagsState

/-- `MemoryManager::new_page`.  For a ROM page, the shared per-page cursor
is taken over; for a RAM page, the cursor is rounded to a word boundary,
the base address recorded, and the page-local cursor starts at 0.  (The
source panics when a RAM page identity is reused; identities are fresh
counters so this cannot happen.) -/
def MemoryManager.new_page (mm : MemoryManager) (pi : PageIdent) : PageCtx :=
  match pi with
  | .rom n =>
    { mm := mm, page := .rom n, page_ident := pi, ptr := mm.rom_ptr n
      flags_as_set := ⟨[]⟩, flags_delay_queue := List.replicate 6 ⟨[]⟩ }
  | .ram ident =>
    let mm1 := (mm.next_ram_word_ptr).1
    match mm1.ram_nibble_ptr with
    | some ram_ptr =>
      let addr := ram_ptr / 4
      { mm := { mm1 with ram_ident_to_addr := mm1.ram_ident_to_addr ++ [(ident, addr)] }
        page := .ram addr, page_ident := pi, ptr := some 0
        flags_as_set := ⟨[]⟩, flags_delay_queue := List.replicate 6 ⟨[]⟩ }
    | none =>
      { mm := mm1, page := .ram 0, page_ident := pi, ptr := none
        flags_as_set := ⟨[]⟩, flags_delay_queue := List.replicate 6 ⟨[]⟩ }

/-- The error a full page raises: `RomPageFull` for ROM, `RamFull` for RAM. -/
def PageCtx.full_error (c : PageCtx) : CompileError :=
  match c.page_ident with
  | .rom n => .RomPageFull n
  | .ram _ => .RamFull

/-- `MemoryPageManager::check_is_full`. -/
def PageCtx.check_is_full (c : PageCtx) : Except CompileError Unit :=
  match c.ptr with
  | none => .error c.full_error
  | some _ => .ok ()

/-- `MemoryPageManager::nibble_ptr` (callers guarantee the cursor is live;
the source unwraps). -/
def PageCtx.nibble_ptr (c : PageCtx) : MemNibblePtr :=
  c.page.nibble_ptr (c.ptr.getD 0)

/-- `current_flags_branch_pov`: the back of the flag-delay queue. -/
def PageCtx.current_flags_branch_pov (c : PageCtx) : FlagsState :=
  c.flags_delay_queue.getLastD ⟨[]⟩

/-- `tick_flags_delay`: `push_front` the current candidate state and
`pop_back`. -/
def PageCtx.tick_flags_delay (c : PageCtx) : PageCtx :=
  { c with flags_delay_queue := (c.flags_as_set :: c.flags_delay_queue).dropLast }

/-- `flush_flags`: overwrite every queue slot with the current candidate
state. -/
def PageCtx.flush_flags (c : PageCtx) : PageCtx :=
  { c with flags_delay_queue := c.flags_delay_queue.map (fun _ => c.flags_as_set) }

/-- `MemoryPageManager::set_flags`: the ALU output now has the single
candidate `(cursor, line)`.  (The source unwraps the cursor; all callers
run with a live cursor.) -/
def PageCtx.set_flags (c : PageCtx) (line : Nat) : PageCtx :=
  { c with flags_as_set := ⟨[(c.ptr.getD 0, line)]⟩ }

/-- `set_possible_flushed_flags`: append `(cursor, line)` as an additional
candidate to the ALU output and to every slot of the delay queue. -/
def PageCtx.set_possible_flushed_flags (c : PageCtx) (line : Nat) : Except CompileError PageCtx :=
  match c.ptr with
  | none => .error c.full_error
  | some p =>
    .ok { c with
          flags_as_set := ⟨c.flags_as_set.sources ++ [(p, line)]⟩
          flags_delay_queue := c.flags_delay_queue.map (fun e => ⟨e.sources ++ [(p, line)]⟩) }

/-- `unreachable_flags`: empty candidate set, flushed through the queue. -/
def PageCtx.unreachable_flags (c : PageCtx) : PageCtx :=
  PageCtx.flush_flags { c with flags_as_set := ⟨[]⟩ }

/-- Index of the first entry equal to `flags` in a candidate list. -/
def findEqIdx (flags : FlagsState) : List FlagsState → Option Nat
  | [] => none
  | f :: rest => if f = flags then some 0 else (findEqIdx flags rest).map (· + 1)

/-- `wait_for_flags`: scan the delay queue from the back towards the
front, then the current ALU output, for a state equal to `flags`; the
index is the number of padding cycles needed. -/
def PageCtx.wait_for_flags (c : PageCtx) (flags : FlagsState) : Option Nat :=
  findEqIdx flags (c.flags_delay_queue.reverse ++ [c.flags_as_set])

/-- `MemoryPageManager::inc`: advance the page-local cursor (`u8`
`checked_add`), the relevant global cursor, and tick the flag queue.  A
RAM page also becomes full when the global RAM plane runs out. -/
def PageCtx.inc (c : PageCtx) : PageCtx :=
  let ptr1 : Option Nat :=
    match c.ptr with
    | some p => if p + 1 ≤ 255 then some (p + 1) else none
    | none => none
  match c.page with
  | .rom n =>
    let global :=
      match c.mm.rom_ptr n with
      | some rp => if rp + 1 ≤ 255 then some (rp + 1) else none
      | none => none
    PageCtx.tick_flags_delay
      { c with mm := { c.mm with rom_ptr := fun i => if i = n then global else c.mm.rom_ptr i }
               ptr := ptr1 }
  | .ram _ =>
    let r := c.mm.inc_ram
    PageCtx.tick_flags_delay
      { c with mm := r.1, ptr := if r.2 then ptr1 else none }

/-- `MemoryPageManager::push`: write one nibble at the cursor and advance. -/
def PageCtx.push (c : PageCtx) (n : Nat) : Except CompileError PageCtx :=
  match c.ptr with
  | none => .error c.full_error
  | some _ =>
    .ok (PageCtx.inc { c with mm := { c.mm with memory := c.mm.memory.set_nibble c.nibble_ptr n } })

/-- Emit `cnt` copies of a nibble (the padding loop before a BRANCH). -/
def PageCtx.pushN (c : PageCtx) (n : Nat) : Nat → Except CompileError PageCtx
  | 0 => .ok c
  | k + 1 => do
    let c2 ← c.push n
    c2.pushN n k

/-- `label_page_location`: bind a label to the current page position.
(The source panics when a label is defined twice; the layouter has already
rejected duplicate labels.) -/
def PageCtx.label_page_location (c : PageCtx) (label : Label) : Except CompileError PageCtx :=
  match c.ptr with
  | none => .error c.full_error
  | some p =>
    .ok { c with mm := { c.mm with labelled_page_locations :=
      c.mm.labelled_page_locations ++ [(label, c.page, p)] } }

/-- `push_labelled_page_location`: reserve two nibbles for a page-local
target, recording the fixup. -/
def PageCtx.push_labelled_page_location (c : PageCtx) (label : Label) : Except CompileError PageCtx :=
  match c.ptr with
  | none => .error c.full_error
  | some p =>
    let c2 := PageCtx.inc { c with mm := { c.mm with labelled_page_location_targets :=
      c.mm.labelled_page_location_targets ++ [(label, c.page, p)] } }
    match c2.ptr with
    | none => .error c2.full_error
    | some _ => .ok c2.inc

/-- `push_page_ram_addr`: reserve four nibbles for a RAM-page base
address, recording the fixup. -/
def PageCtx.push_page_ram_addr (c : PageCtx) (ident : Nat) : Except CompileError PageCtx :=
  match c.ptr with
  | none => .error c.full_error
  | some p =>
    let c2 := (PageCtx.inc { c with mm := { c.mm with ram_page_targets :=
      c.mm.ram_page_targets ++ [(ident, c.page, p)] } }).inc.inc
    match c2.ptr with
    | none => .error c2.full_error
    | some _ => .ok c2.inc

/-- `MemoryPageManager::push_labelled_ram_address`: reserve four nibbles
for a RAM data-label address, recording the fixup. -/
def PageCtx.push_labelled_ram_address (c : PageCtx) (label : Label) (line : Nat) :
    Except CompileError PageCtx :=
  match c.ptr with
  | none => .error c.full_error
  | some _ =>
    let c2 := (PageCtx.inc { c with mm := { c.mm with labelled_ram_address_targets :=
      c.mm.labelled_ram_address_targets ++ [(label, line, c.nibble_ptr)] } }).inc.inc
    match c2.ptr with
    | none => .error c2.full_error
    | some _ => .ok c2.inc

/-- One nibble of a 16-bit word into the RAM data plane. -/
def MemoryManager.push_ram_nibble (mm : MemoryManager) (n : Nat) : Except CompileError MemoryManager :=
  match mm.ram_nibble_ptr with
  | some p => .ok ({ mm with memory := mm.memory.set_nibble (.ram p) n }.inc_ram).1
  | none => .error .RamFull

/-- `MemoryManager::push_ram`: a 16-bit word as four nibbles, most
significant first. -/
def MemoryManager.push_ram (mm : MemoryManager) (value : Nat) : Except CompileError MemoryManager := do
  let mm ← mm.push_ram_nibble (value >>> 12 &&& 15)
  let mm ← mm.push_ram_nibble (value >>> 8 &&& 15)
  let mm ← mm.push_ram_nibble (value >>> 4 &&& 15)
  mm.push_ram_nibble (value &&& 15)

/-- `MemoryManager::label_ram_address`: bind a data label to the next RAM
word address. -/
def MemoryManager.label_ram_address (mm : MemoryManager) (label : Label) (line : Nat) :
    Except CompileError MemoryManager :=
  let r := mm.next_ram_word_ptr
  match r.2 with
  | some ram_ptr =>
    if (r.1.labelled_ram_addresses.lookup label).isSome then
      .error (.DuplicateRamLabel line label)
    else
      .ok { r.1 with labelled_ram_addresses := r.1.labelled_ram_addresses ++ [(label, ram_ptr)] }
  | none => .error .RamFull

/-- `MemoryManager::push_labelled_ram_address` (the data-section variant):
reserve four RAM nibbles for a data-label address. -/
def MemoryManager.push_labelled_ram_address (mm : MemoryManager) (label : Label) (line : Nat) :
    Except CompileError MemoryManager :=
  match mm.ram_nibble_ptr with
  | some p =>
    let mm1 : MemoryManager := { mm with labelled_ram_address_targets :=
      mm.labelled_ram_address_targets ++ [(label, line, .ram p)] }
    let mm2 := (((mm1.inc_ram).1.inc_ram).1.inc_ram).1
    match mm2.ram_nibble_ptr with
    | none => .error .RamFull
    | some _ => .ok (mm2.inc_ram).1
  | none => .error .RamFull

/-- `MemoryManager::finish`: apply the three fixup tables.  Page-location
fixups write the 8-bit target high nibble first (the lookup is unwrapped
in the source — `compile_line` has already checked every target label
exists); RAM-page fixups write the 16-bit base address high nibble first;
data-label fixups fail with `MissingRamLabel` when the label was never
bound. -/
def MemoryManager.finish (mm : MemoryManager) : Except CompileError CMemory := do
  let mem1 := mm.labelled_page_location_targets.foldl (fun m t =>
    let target := (((mm.labelled_page_locations.lookup t.1).getD (.rom 0, 0))).2
    (m.set_nibble (t.2.1.nibble_ptr t.2.2) (target >>> 4 &&& 15)).set_nibble
      (t.2.1.nibble_ptr ((t.2.2 + 1) % 256)) (target &&& 15)) mm.memory
  let mem2 := mm.ram_page_targets.foldl (fun m t =>
    let addr := (mm.ram_ident_to_addr.lookup t.1).getD 0
    ((((m.set_nibble (t.2.1.nibble_ptr ((t.2.2 + 3) % 256)) (addr &&& 15)).set_nibble
      (t.2.1.nibble_ptr ((t.2.2 + 2) % 256)) (addr >>> 4 &&& 15)).set_nibble
      (t.2.1.nibble_ptr ((t.2.2 + 1) % 256)) (addr >>> 8 &&& 15)).set_nibble
      (t.2.1.nibble_ptr t.2.2) (addr >>> 12 &&& 15))) mem1
  mm.labelled_ram_address_targets.foldlM (fun m t =>
    match mm.labelled_ram_addresses.lookup t.1 with
    | some address =>
      .ok ((((m.set_nibble t.2.2 (address >>> 12 &&& 15)).set_nibble
        (t.2.2.offset 1) (address >>> 8 &&& 15)).set_nibble
        (t.2.2.offset 2) (address >>> 4 &&& 15)).set_nibble
        (t.2.2.offset 3) (address &&& 15))
    | none => .error (.MissingRamLabel t.2.1 t.1)) mem2

/-- `Memory::finish` + `ProgramMemory::new`: the compile-time nibble image
as runtime memory (RAM nibbles packed into words, most significant
first). -/
def CMemory.to_program_memory (m : CMemory) : ProgramMemory :=
  { rom := m.rom_pages
    ram := fun i => m.ram (4 * i + 3) ||| m.ram (4 * i + 2) <<< 4
      ||| m.ram (4 * i + 1) <<< 8 ||| m.ram (4 * i) <<< 12 }

/-! ### Assembly lines (assembly.rs) -/

/-- Branch conditions. -/
inductive Condition
  | InputReady
  | InputNotReady
  | Equal
  | NotEqual
  | Negative
  | Positive
  | OverflowSet
  | OverflowClear
  | HigherSame
  | Lower
  | Higher
  | LowerSame
  | GreaterEqual
  | Less
  | Greater
  | LessEqual
deriving DecidableEq

/-- The condition nibble the assembler emits for each condition
(compile.rs, the `Command::Branch` arm). -/
def Condition.nibble : Condition → Nat
  | .InputReady => 0
  | .InputNotReady => 1
  | .Equal => 2
  | .NotEqual => 3
  | .Negative => 4
  | .Positive => 5
  | .OverflowSet => 6
  | .OverflowClear => 7
  | .HigherSame => 8
  | .Lower => 9
  | .Higher => 10
  | .LowerSame => 11
  | .GreaterEqual => 12
  | .Less => 13
  | .Greater => 14
  | .LessEqual => 15

/-- Assembly commands.  Positions (`WithPos`) are dropped — only the
assembly line number, carried by `LayoutPagesLine`, feeds diagnostics.
Nibble, register and oct-digit operands become `Nat`. -/
inductive Command
  | Pass
  | Raw (nibbles : List Nat)
  | RawLabel (label : Label)
  | Value (v : Option Nat)
  | AddressValue (label : Label)
  | Jump (label : Label)
  | Branch (cond : Condition) (label : Label)
  | Push (reg : Nat)
  | Pop (reg : Nat)
  | Call (label : Label)
  | Return
  | Add (reg : Nat)
  | Rotate (shift : Nat) (register : Nat)
  | Duplicate
  | Not
  | Read
  | ReadPop
  | Increment
  | IncrementWithCarry
  | Decrement
  | DecrementWithCarry
  | Negate
  | NegateWithCarry
  | NoopSetFlags
  | PopSetFlags
  | RightShift
  | RightShiftCarryIn
  | RightShiftOneIn
  | ArithmeticRightShift
  | Swap (reg : Nat)
  | Sub (reg : Nat)
  | Write (reg : Nat)
  | WritePop (reg : Nat)
  | And (reg : Nat)
  | Nand (reg : Nat)
  | Or (reg : Nat)
  | Nor (reg : Nat)
  | Xor (reg : Nat)
  | NXor (reg : Nat)
  | RegToFlags (reg : Nat)
  | Compare (reg : Nat)
  | SwapAdd (reg : Nat)
  | SwapSub (reg : Nat)
  | AddWithCarry (reg : Nat)
  | SubWithCarry (reg : Nat)
  | RawRamCall
  | Input
  | Output (octs : List Nat)
  | Alloc (v : Option Nat)
deriving DecidableEq

/-- Meta directives that may appear inside a page bucket. -/
inductive MetaLine
  | RomPage (n : Nat)
  | RamPage
  | Data
  | MLabel (label : Label)
  | UseFlags
deriving DecidableEq

/-- One assembly line: a command or a meta directive. -/
inductive Line
  | Command (c : P16.Command)
  | Meta (m : MetaLine)
deriving DecidableEq

/-- `LayoutPagesLine`: a line with its index in the assembly. -/
structure LayoutPagesLine where
  line : Line
  assembly_line_num : Nat
deriving DecidableEq

/-! ### compile_assembly (compile.rs lines 801-1323) -/

/-- Per-page compile state threaded through the line loop of
`compile_assembly`: the page manager, the `.USEFLAGS` snapshot, and the
two UI cross-reference maps. -/
structure PageSt where
  ctx : PageCtx
  useflag_saved_flag_state : Option (FlagsState × Nat)
  useflag_lines : List (Nat × List Nat)
  branch_lines : List (Nat × Nat)

/-- Lift a page-manager action into the per-page state. -/
def PageSt.withCtx (st : PageSt) (r : Except CompileError PageCtx) : Except CompileError PageSt :=
  r.map (fun c => { st with ctx := c })

/-- One command or meta line of a program page (the body of the line loop
of `compile_assembly`). -/
def compile_line (label_to_page : List (Label × PageIdent)) (page : PageIdent)
    (st : PageSt) (l : LayoutPagesLine) : Except CompileError PageSt :=
  match l.line with
  | .Meta m =>
    match m with
    | .RomPage _ | .RamPage | .Data =>
      -- source: unreachable!() — the layouter never places section
      -- delimiters inside a page bucket
      .error (.InvalidCommandLocation l.assembly_line_num)
    | .MLabel label =>
      st.withCtx (do
        let c ← st.ctx.set_possible_flushed_flags l.assembly_line_num
        c.label_page_location label)
    | .UseFlags =>
      .ok { st with
            useflag_saved_flag_state := some (st.ctx.flags_as_set, l.assembly_line_num)
            useflag_lines := st.useflag_lines
              ++ [(l.assembly_line_num, st.ctx.flags_as_set.sources.map (·.2))] }
  | .Command cmd =>
    match cmd with
    | .Pass => st.withCtx (st.ctx.push 0)
    | .Raw nibbles =>
      st.withCtx (do
        let c ← st.ctx.set_possible_flushed_flags l.assembly_line_num
        nibbles.foldlM (fun c n => c.push n) c)
    | .RawLabel label =>
      st.withCtx (do
        let c ← st.ctx.set_possible_flushed_flags l.assembly_line_num
        match label_to_page.lookup label with
        | none => .error (.MissingLabel l.assembly_line_num label)
        | some _ => c.push_labelled_page_location label)
    | .Value v =>
      match v with
      | none => .error (.Invalid16BitValue l.assembly_line_num)
      | some v =>
        st.withCtx (do
          let c ← st.ctx.push 1
          let c ← c.push (v >>> 12 &&& 15)
          let c ← c.push (v >>> 8 &&& 15)
          let c ← c.push (v >>> 4 &&& 15)
          c.push (v &&& 15))
    | .AddressValue label =>
      st.withCtx (do
        let c ← st.ctx.push 1
        c.push_labelled_ram_address label l.assembly_line_num)
    | .Jump label =>
      let c := st.ctx.unreachable_flags
      (match label_to_page.lookup label with
       | none => .error (.MissingLabel l.assembly_line_num label)
       | some target_page =>
         if page ≠ target_page then .error (.JumpOrBranchToOtherPage l.assembly_line_num)
         else
           st.withCtx (do
             let c ← c.push 2
             c.push_labelled_page_location label))
    | .Branch cond label =>
      (match label_to_page.lookup label with
       | none => .error (.MissingLabel l.assembly_line_num label)
       | some target_page =>
         if page ≠ target_page then .error (.JumpOrBranchToOtherPage l.assembly_line_num)
         else do
           let st ←
             (match st.useflag_saved_flag_state with
              | some (flags, useflags_assembly_line) => do
                let c ←
                  (match st.ctx.wait_for_flags flags with
                   | some delay => st.ctx.pushN 0 delay
                   | none =>
                     if flags ≠ st.ctx.current_flags_branch_pov then
                       .error (.BadUseflagsWithBranch l.assembly_line_num useflags_assembly_line)
                     else
                       .ok st.ctx)
                .ok { st with
                      ctx := c
                      branch_lines := st.branch_lines
                        ++ [(l.assembly_line_num, useflags_assembly_line)] }
              | none => .ok st)
           let st : PageSt := { st with useflag_saved_flag_state := none }
           st.withCtx (do
             let c ← st.ctx.push 3
             let c ← c.push cond.nibble
             let c ← c.push_labelled_page_location label
             .ok c.flush_flags))
    | .Push reg =>
      st.withCtx (do
        let c ← st.ctx.push 4
        c.push reg)
    | .Pop reg =>
      st.withCtx (do
        let c ← st.ctx.push 5
        c.push reg)
    | .Call label =>
      st.withCtx (do
        let c ← st.ctx.set_possible_flushed_flags l.assembly_line_num
        let c := c.flush_flags
        match label_to_page.lookup label with
        | none => .error (.MissingLabel l.assembly_line_num label)
        | some target_page =>
          if page = target_page then do
            let c ← c.push 6
            c.push_labelled_page_location label
          else
            match target_page with
            | .rom nibble => do
              let c ← c.push 12
              let c ← c.push nibble
              c.push_labelled_page_location label
            | .ram ident => do
              let c ← c.push 1
              let c ← c.push_page_ram_addr ident
              let c ← c.push 13
              c.push_labelled_page_location label)
    | .Return => st.withCtx ((st.ctx.unreachable_flags).push 7)
    | .Add reg =>
      st.withCtx (do
        let c ← (st.ctx.set_flags l.assembly_line_num).push 8
        c.push reg)
    | .Rotate shift register =>
      st.withCtx (do
        let c ← st.ctx.push 9
        let c ← c.push shift
        c.push register)
    | .Duplicate =>
      st.withCtx (do
        let c ← st.ctx.push 10
        c.push 0)
    | .Not =>
      st.withCtx (do
        let c ← (st.ctx.set_flags l.assembly_line_num).push 10
        c.push 1)
    | .Read =>
      st.withCtx (do
        let c ← st.ctx.push 10
        c.push 2)
    | .ReadPop =>
      st.withCtx (do
        let c ← st.ctx.push 10
        c.push 3)
    | .Increment =>
      st.withCtx (do
        let c ← (st.ctx.set_flags l.assembly_line_num).push 10
        c.push 4)
    | .IncrementWithCarry =>
      st.withCtx (do
        let c ← (st.ctx.set_flags l.assembly_line_num).push 10
        c.push 5)
    | .Decrement =>
      st.withCtx (do
        let c ← (st.ctx.set_flags l.assembly_line_num).push 10
        c.push 6)
    | .DecrementWithCarry =>
      st.withCtx (do
        let c ← (st.ctx.set_flags l.assembly_line_num).push 10
        c.push 7)
    | .Negate =>
      st.withCtx (do
        let c ← (st.ctx.set_flags l.assembly_line_num).push 10
        c.push 8)
    | .NegateWithCarry =>
      st.withCtx (do
        let c ← (st.ctx.set_flags l.assembly_line_num).push 10
        c.push 9)
    | .NoopSetFlags =>
      st.withCtx (do
        let c ← (st.ctx.set_flags l.assembly_line_num).push 10
        c.push 10)
    | .PopSetFlags =>
      st.withCtx (do
        let c ← (st.ctx.set_flags l.assembly_line_num).push 10
        c.push 11)
    | .RightShift =>
      st.withCtx (do
        let c ← (st.ctx.set_flags l.assembly_line_num).push 10
        c.push 12)
    | .RightShiftCarryIn =>
      st.withCtx (do
        let c ← (st.ctx.set_flags l.assembly_line_num).push 10
        c.push 13)
    | .RightShiftOneIn =>
      st.withCtx (do
        let c ← (st.ctx.set_flags l.assembly_line_num).push 10
        c.push 14)
    | .ArithmeticRightShift =>
      st.withCtx (do
        let c ← (st.ctx.set_flags l.assembly_line_num).push 10
        c.push 15)
    | .Swap reg =>
      st.withCtx (do
        let c ← st.ctx.push 11
        let c ← c.push 0
        c.push reg)
    | .Sub reg =>
      st.withCtx (do
        let c ← (st.ctx.set_flags l.assembly_line_num).push 11
        let c ← c.push 1
        c.push reg)
    | .Write reg =>
      st.withCtx (do
        let c ← st.ctx.push 11
        let c ← c.push 2
        c.push reg)
    | .WritePop reg =>
      st.withCtx (do
        let c ← st.ctx.push 11
        let c ← c.push 3
        c.push reg)
    | .And reg =>
      st.withCtx (do
        let c ← (st.ctx.set_flags l.assembly_line_num).push 11
        let c ← c.push 4
        c.push reg)
    | .Nand reg =>
      st.withCtx (do
        let c ← (st.ctx.set_flags l.assembly_line_num).push 11
        let c ← c.push 5
        c.push reg)
    | .Or reg =>
      st.withCtx (do
        let c ← (st.ctx.set_flags l.assembly_line_num).push 11
        let c ← c.push 6
        c.push reg)
    | .Nor reg =>
      st.withCtx (do
        let c ← (st.ctx.set_flags l.assembly_line_num).push 11
        let c ← c.push 7
        c.push reg)
    | .Xor reg =>
      st.withCtx (do
        let c ← (st.ctx.set_flags l.assembly_line_num).push 11
        let c ← c.push 8
        c.push reg)
    | .NXor reg =>
      st.withCtx (do
        let c ← (st.ctx.set_flags l.assembly_line_num).push 11
        let c ← c.push 9
        c.push reg)
    | .RegToFlags reg =>
      st.withCtx (do
        let c ← (st.ctx.set_flags l.assembly_line_num).push 11
        let c ← c.push 10
        c.push reg)
    | .Compare reg =>
      st.withCtx (do
        let c ← (st.ctx.set_flags l.assembly_line_num).push 11
        let c ← c.push 11
        c.push reg)
    | .SwapAdd reg =>
      st.withCtx (do
        let c ← (st.ctx.set_flags l.assembly_line_num).push 11
        let c ← c.push 12
        c.push reg)
    | .SwapSub reg =>
      st.withCtx (do
        let c ← (st.ctx.set_flags l.assembly_line_num).push 11
        let c ← c.push 13
        c.push reg)
    | .AddWithCarry reg =>
      st.withCtx (do
        let c ← (st.ctx.set_flags l.assembly_line_num).push 11
        let c ← c.push 14
        c.push reg)
    | .SubWithCarry reg =>
      st.withCtx (do
        let c ← (st.ctx.set_flags l.assembly_line_num).push 11
        let c ← c.push 15
        c.push reg)
    | .RawRamCall =>
      st.withCtx (do
        let c ← st.ctx.set_possible_flushed_flags l.assembly_line_num
        (c.flush_flags).push 13)
    | .Input => st.withCtx (st.ctx.push 14)
    | .Output octs =>
      st.withCtx (do
        let c ← st.ctx.push 15
        octs.enum.foldlM (fun c p =>
          c.push (p.2 ||| (if p.1 + 1 = octs.length then 8 else 0))) c)
    | .Alloc _ => .error (.InvalidCommandLocation l.assembly_line_num)

/-- One line of a data section (the `AssemblyPageIdent::Data` arm of
`compile_assembly`). -/
def compile_data_line (mm : MemoryManager) (l : LayoutPagesLine) : Except CompileError MemoryManager :=
  match l.line with
  | .Command cmd =>
    match cmd with
    | .Value none => .error (.Invalid16BitValue l.assembly_line_num)
    | .Value (some v) => mm.push_ram v
    | .AddressValue label => mm.push_labelled_ram_address label l.assembly_line_num
    | .Alloc none => .error (.Invalid16BitValue l.assembly_line_num)
    | .Alloc (some quantity) =>
      (List.range quantity).foldlM (fun mm _ => mm.push_ram 0) mm
    | _ => .error (.InvalidCommandLocation l.assembly_line_num)
  | .Meta m =>
    match m with
    | .MLabel label => mm.label_ram_address label l.assembly_line_num
    | .UseFlags => .error (.InvalidCommandLocation l.assembly_line_num)
    | .RomPage _ | .RamPage | .Data =>
      -- source: unreachable!()
      .error (.InvalidCommandLocation l.assembly_line_num)

/-- The global state threaded through the page loop of
`compile_assembly`. -/
structure CompileAcc where
  mm : MemoryManager
  ram_pages : List (Nat × Nat)
  useflag_lines : List (Nat × List Nat)
  branch_lines : List (Nat × Nat)

/-- One page bucket of `compile_assembly`. -/
def compile_page (label_to_page : List (Label × PageIdent)) (acc : CompileAcc)
    (entry : AssemblyPageIdent × List LayoutPagesLine) : Except CompileError CompileAcc :=
  match entry.1 with
  | .Prog p => do
    let st0 : PageSt := { ctx := acc.mm.new_page p, useflag_saved_flag_state := none
                          useflag_lines := acc.useflag_lines, branch_lines := acc.branch_lines }
    let st ← entry.2.foldlM (compile_line label_to_page p) st0
    let ram_pages :=
      match st.ctx.page_ident, st.ctx.page with
      | .ram _, .ram start => acc.ram_pages ++ [(start, st.ctx.ptr.getD 256)]
      | _, _ => acc.ram_pages
    .ok { mm := st.ctx.mm, ram_pages := ram_pages
          useflag_lines := st.useflag_lines, branch_lines := st.branch_lines }
  | .Data _ => do
    let mm ← entry.2.foldlM compile_data_line acc.mm
    .ok { acc with mm := mm }

/-- A successful compile: the finished memory image, the RAM-page
`(start, length)` records, and the two UI cross-reference maps.  (The
source also records per-line page spans for the editor; those are pure
bookkeeping and are not modelled.) -/
structure CompileSuccess where
  program_memory : ProgramMemory
  ram_pages : List (Nat × Nat)
  useflag_lines : List (Nat × List Nat)
  branch_lines : List (Nat × Nat)

/-- `compile_assembly`: fold the page buckets, then apply fixups and pack
the memory image. -/
def compile_assembly (pages : List (AssemblyPageIdent × List LayoutPagesLine))
    (label_to_page : List (Label × PageIdent)) : Except CompileError CompileSuccess := do
  let acc ← pages.foldlM (compile_page label_to_page)
    ⟨MemoryManager.blank, [], [], []⟩
  let mem ← acc.mm.finish
  .ok { program_memory := mem.to_program_memory, ram_pages := acc.ram_pages
        useflag_lines := acc.useflag_lines, branch_lines := acc.branch_lines }

/-! ### Claim C4 -/

/-- The claim C4 source page: `ADD %0`, seven `PASS`es, `.USEFLAGS`,
`BRANCH Z end`, and the in-page label `end`. -/
def c4_lines : List LayoutPagesLine :=
  [⟨.Command (.Add 0), 1⟩,
   ⟨.Command .Pass, 2⟩,
   ⟨.Command .Pass, 3⟩,
   ⟨.Command .Pass, 4⟩,
   ⟨.Command .Pass, 5⟩,
   ⟨.Command .Pass, 6⟩,
   ⟨.Command .Pass, 7⟩,
   ⟨.Command .Pass, 8⟩,
   ⟨.Meta .UseFlags, 9⟩,
   ⟨.Command (.Branch .Equal "end"), 10⟩,
   ⟨.Meta (.MLabel "end"), 11⟩]

/-- The claim C4 page layout: one ROM-0 page. -/
def c4_pages : List (AssemblyPageIdent × List LayoutPagesLine) :=
  [(.Prog (.rom 0), c4_lines)]

/-- The claim C4 label table: `end` lives in ROM page 0. -/
def c4_labels : List (Label × PageIdent) :=
  [("end", .rom 0)]

/-- Claim C4 counterexample: compiling the `ADD %0 / PASS ×7 / .USEFLAGS /
BRANCH Z end` page does NOT fail — `compile_assembly` succeeds, because
`PASS` does not change `flag_as_set`, so the ADD's candidate is still the
whole content of the delay queue when the BRANCH is encoded and
`wait_for_flags` finds it at delay 0. -/
theorem c4_counterexample :
    (compile_assembly c4_pages c4_labels).toOption.isSome = true := by
  rfl

/-- Claim C4 amended: that page compiles successfully with no padding and
no error; the emitted ROM-0 stream is exactly `ADD %0` (8,0), seven
`PASS` (0), `BRANCH Z` (3,2) and the fixed-up target offset 13 (0,13),
and the BRANCH is cross-referenced to the `.USEFLAGS` line. -/
theorem c4_amended :
    (compile_assembly c4_pages c4_labels).map
      (fun r => ((List.range 16).map (r.program_memory.rom 0), r.branch_lines))
    = .ok ([8, 0, 0, 0, 0, 0, 0, 0, 0, 3, 2, 0, 13, 0, 0, 0], [(10, 9)]) := by
  rfl

/-! ### Claim C5 -/

/-- The claim C5 source page: a `RETURN` (which empties the flag candidate
set) followed by a standalone `.USEFLAGS`. -/
def c5_lines : List LayoutPagesLine :=
  [⟨.Command .Return, 1⟩,
   ⟨.Meta .UseFlags, 2⟩]

/-- The claim C5 page layout: one ROM-0 page, no labels. -/
def c5_pages : List (AssemblyPageIdent × List LayoutPagesLine) :=
  [(.Prog (.rom 0), c5_lines)]

/-- Claim C5 counterexample: a `.USEFLAGS` reached with an EMPTY
`flag_as_set` candidate set does NOT fail with `BadUseflags` —
compilation succeeds and the line is recorded with its (empty) source
set.  No code path in compile.rs constructs `BadUseflags`. -/
theorem c5_counterexample :
    (compile_assembly c5_pages []).map (fun r => r.useflag_lines) = .ok [(2, [])] := by
  rfl

/-- Claim C5 amended: a `.USEFLAGS` meta line never fails, empty candidate
set or not: it records its source set and the snapshot for a following
BRANCH, emits no nibbles and leaves the page state otherwise unchanged
(the `BadUseflags` error variant exists but is never produced). -/
theorem useflags_records_never_fails (ltp : List (Label × PageIdent)) (page : PageIdent)
    (st : PageSt) (n : Nat) :
    compile_line ltp page st ⟨.Meta .UseFlags, n⟩ =
      .ok { st with
            useflag_saved_flag_state := some (st.ctx.flags_as_set, n)
            useflag_lines := st.useflag_lines
              ++ [(n, st.ctx.flags_as_set.sources.map (·.2))] } := by
  rfl

/-! ### Claim C8 -/

/-- A sequence of `push`es, as the assembler's emission loop performs
them. -/
def pushList (c : PageCtx) (ns : List Nat) : Except CompileError PageCtx :=
  ns.foldlM (fun c n => c.push n) c

/-- A fresh page manager for a ROM page of a blank memory manager:
cursor at 0. -/
def freshRomPage (r : Nat) : PageCtx :=
  MemoryManager.blank.new_page (.rom r)

/-- One `push` into a ROM page with a live cursor: it succeeds, stays on
the page, and `checked_add`s the cursor. -/
theorem push_rom_spec (c : PageCtx) (r n p : Nat) (hpage : c.page = .rom r)
    (hid : c.page_ident = .rom r) (hp : c.ptr = some p) :
    ∃ c2, c.push n = .ok c2 ∧ c2.page = .rom r ∧ c2.page_ident = .rom r ∧
      c2.ptr = (if p + 1 ≤ 255 then some (p + 1) else none) := by
  obtain ⟨mm, page, pid, ptr, fas, fdq⟩ := c
  dsimp only at hpage hid hp
  subst hpage
  subst hid
  subst hp
  exact ⟨_, rfl, rfl, rfl, rfl⟩

/-- Emitting a list that fits the remaining room of a ROM page succeeds,
and the cursor advances by exactly the number of nibbles, reading `none`
("full") exactly when offset 256 is reached. -/
theorem pushList_rom (r : Nat) : ∀ (ns : List Nat) (c : PageCtx) (p : Nat),
    c.page = .rom r → c.page_ident = .rom r → c.ptr = some p → p ≤ 255 →
    p + ns.length ≤ 256 →
    ∃ c', pushList c ns = .ok c' ∧ c'.page = .rom r ∧ c'.page_ident = .rom r ∧
      c'.ptr = (if p + ns.length ≤ 255 then some (p + ns.length) else none) := by
  intro ns
  induction ns with
  | nil =>
    intro c p hpage hid hptr hp255 _hroom
    refine ⟨c, rfl, hpage, hid, ?_⟩
    simp [hptr, hp255]
  | cons n rest ih =>
    intro c p hpage hid hptr hp255 hroom
    simp only [List.length_cons] at hroom
    obtain ⟨c2, hpush, hpg2, hid2, hptr2⟩ := push_rom_spec c r n p hpage hid hptr
    have hfold : pushList c (n :: rest) = c.push n >>= (fun c => pushList c rest) := by
      simp [pushList]
    by_cases hp1 : p + 1 ≤ 255
    · rw [if_pos hp1] at hptr2
      obtain ⟨c', hrest, ha, hb, hc⟩ := ih c2 (p + 1) hpg2 hid2 hptr2 (by omega) (by omega)
      refine ⟨c', ?_, ha, hb, ?_⟩
      · rw [hfold, hpush]
        exact hrest
      · rw [hc]
        have harith : p + 1 + rest.length = p + (rest.length + 1) := by omega
        rw [harith]
        simp
    · have hp' : p = 255 := by omega
      have hlen : rest.length = 0 := by omega
      have hrest : rest = [] := List.length_eq_zero.mp hlen
      subst hrest
      rw [if_neg hp1] at hptr2
      refine ⟨c2, ?_, hpg2, hid2, ?_⟩
      · rw [hfold, hpush]
        rfl
      · rw [hptr2]
        have : ¬ p + [n].length ≤ 255 := by simp; omega
        rw [if_neg this]

/-- Claim C8: the ROM-page write cursor stays in `[0, 256]` (`none`
standing for 256, "full"): a successful push leaves the cursor at most
255 or full; emitting exactly 256 nibbles into a fresh ROM page succeeds,
filling it (`ptr = none`); and any further emission into that page fails
with `RomPageFull` naming the page. -/
theorem rom_page_cursor_bounds (r : Nat) (ns : List Nat) (h : ns.length = 256) :
    (∀ (c : PageCtx) (n : Nat) (c' : PageCtx), c.push n = .ok c' →
      ∀ p', c'.ptr = some p' → p' ≤ 255) ∧
    (∃ c', pushList (freshRomPage r) ns = .ok c' ∧ c'.ptr = none ∧
      ∀ m, c'.push m = .error (.RomPageFull r)) := by
  constructor
  · intro c n c' hpush p' hp'
    unfold PageCtx.push at hpush
    cases hptr : c.ptr with
    | none => rw [hptr] at hpush; exact absurd hpush (by simp)
    | some p =>
      rw [hptr] at hpush
      injection hpush with hpush
      subst hpush
      unfold PageCtx.inc at hp'
      cases hpage : c.page with
      | rom n2 =>
        rw [hpage] at hp'
        simp [PageCtx.tick_flags_delay] at hp'
        omega
      | ram b =>
        rw [hpage] at hp'
        simp [PageCtx.tick_flags_delay] at hp'
        omega
  · have hfresh : (freshRomPage r).ptr = some 0 := rfl
    obtain ⟨c', hc', h1, h2, h3⟩ := pushList_rom r ns (freshRomPage r) 0 rfl rfl hfresh
      (by omega) (by omega)
    rw [h] at h3
    simp at h3
    refine ⟨c', hc', h3, ?_⟩
    intro m
    unfold PageCtx.push
    rw [h3]
    unfold PageCtx.full_error
    rw [h2]

/-- Claim C8 witness: 256 zero nibbles exactly fill ROM page 0 and the
257th emission fails `RomPageFull 0`. -/
theorem rom_page_cursor_bounds_witness :
    ∃ c', pushList (freshRomPage 0) (List.replicate 256 0) = .ok c' ∧ c'.ptr = none ∧
      ∀ m, c'.push m = .error (.RomPageFull 0) :=
  (rom_page_cursor_bounds 0 (List.replicate 256 0) (by simp)).2

/-! ### Claim C6 -/

/-- A fresh per-page compile state for a ROM page of a blank manager. -/
def freshRomSt (r : Nat) : PageSt :=
  { ctx := freshRomPage r, useflag_saved_flag_state := none
    useflag_lines := [], branch_lines := [] }

/-- Claim C6: a JUMP or BRANCH whose target label lives in another page
fails with `JumpOrBranchToOtherPage` (in any page state); a CALL to a
label in another page raises no error and is rewritten — a ROM target
page `p2` becomes opcode 12, the page nibble, and a 2-nibble local-target
fixup; a RAM target page `k` becomes opcode 1 with a 4-nibble
RAM-base-address fixup, then opcode 13 and a 2-nibble local-target
fixup. -/
theorem cross_page_jump_branch_call (ltp : List (Label × PageIdent)) (L : Label)
    (q : PageIdent) (hq : ltp.lookup L = some q) :
    (∀ (pi : PageIdent) (st : PageSt) (line : Nat), pi ≠ q →
      compile_line ltp pi st ⟨.Command (.Jump L), line⟩
        = .error (.JumpOrBranchToOtherPage line)) ∧
    (∀ (pi : PageIdent) (st : PageSt) (line : Nat) (cond : Condition), pi ≠ q →
      compile_line ltp pi st ⟨.Command (.Branch cond L), line⟩
        = .error (.JumpOrBranchToOtherPage line)) ∧
    (∀ (r p2 line : Nat), q = .rom p2 → PageIdent.rom r ≠ q →
      ∃ st', compile_line ltp (.rom r) (freshRomSt r) ⟨.Command (.Call L), line⟩ = .ok st' ∧
        st'.ctx.mm.memory.rom_pages r 0 = 12 ∧
        st'.ctx.mm.memory.rom_pages r 1 = p2 ∧
        st'.ctx.mm.labelled_page_location_targets = [(L, .rom r, 2)] ∧
        st'.ctx.mm.ram_page_targets = [] ∧
        st'.ctx.ptr = some 4) ∧
    (∀ (r k line : Nat), q = .ram k →
      ∃ st', compile_line ltp (.rom r) (freshRomSt r) ⟨.Command (.Call L), line⟩ = .ok st' ∧
        st'.ctx.mm.memory.rom_pages r 0 = 1 ∧
        st'.ctx.mm.ram_page_targets = [(k, .rom r, 1)] ∧
        st'.ctx.mm.memory.rom_pages r 5 = 13 ∧
        st'.ctx.mm.labelled_page_location_targets = [(L, .rom r, 6)] ∧
        st'.ctx.ptr = some 8) := by
  refine ⟨?_, ?_, ?_, ?_⟩
  · intro pi st line hne
    simp only [compile_line]
    rw [hq]
    simp [hne]
  · intro pi st line cond hne
    simp only [compile_line]
    rw [hq]
    simp [hne]
  · intro r p2 line hq2 hne
    subst hq2
    simp only [compile_line, PageSt.withCtx, PageCtx.set_possible_flushed_flags, freshRomSt, freshRomPage,
      MemoryManager.new_page, MemoryManager.blank, PageCtx.flush_flags, hq, if_neg hne,
      PageCtx.push, PageCtx.inc, PageCtx.tick_flags_delay, PageCtx.nibble_ptr,
      PageLocation.nibble_ptr, CMemory.set_nibble, PageCtx.push_labelled_page_location,
      PageCtx.full_error, Except.map]
    refine ⟨_, rfl, ?_, ?_, ?_, ?_, ?_⟩ <;> simp
  · intro r k line hq2
    subst hq2
    have hne : PageIdent.rom r ≠ PageIdent.ram k := by simp
    simp only [compile_line, PageSt.withCtx, PageCtx.set_possible_flushed_flags, freshRomSt, freshRomPage,
      MemoryManager.new_page, MemoryManager.blank, PageCtx.flush_flags, hq, if_neg hne,
      PageCtx.push, PageCtx.inc, PageCtx.tick_flags_delay, PageCtx.nibble_ptr,
      PageLocation.nibble_ptr, CMemory.set_nibble, PageCtx.push_labelled_page_location,
      PageCtx.push_page_ram_addr, PageCtx.full_error, Except.map]
    refine ⟨_, rfl, ?_, ?_, ?_, ?_, ?_⟩ <;> simp

/-- Claim C6 witness: with label `f` owned by ROM page 1, a JUMP from ROM
page 0 fails with `JumpOrBranchToOtherPage`. -/
theorem cross_page_jump_branch_call_witness :
    compile_line [("f", .rom 1)] (.rom 0) (freshRomSt 0) ⟨.Command (.Jump "f"), 5⟩
      = .error (.JumpOrBranchToOtherPage 5) :=
  (cross_page_jump_branch_call [("f", .rom 1)] "f" (.rom 1) rfl).1 (.rom 0) (freshRomSt 0) 5
    (by decide)

end P16

